import Mathlib

/-!
# MyCropMap: the upload / extract / save coordination core

A shallow embedding of the Redux slices of the dashboard
(`features/plants/plantSlice.js`, `features/upload/uploadSlice.js`,
`features/ui/uiSlice.js`), of the service wrappers they call
(`services/api.js`, `services/cloudinary.js`), of the drop and upload handlers
of `components/ImageUpload/ImageUpload.jsx`, of the list that
`components/FarmMap/FarmMap.jsx` renders and of the load of the cache in
`App.jsx`.

Modelling conventions.

* JavaScript values are the data values that can reach the store: JSON data
  plus `undefined`.  Numbers are finite and exact (`ℚ`); the program never
  computes with them, it only passes them on and tests them.
* A JavaScript exception is `Except.error`; the text is the error message.
  Texts chosen by the engine (those of a `TypeError`, of a `SyntaxError`) are
  fixed representatives.
* Reducers run under Immer: a reducer that throws leaves the state as it was,
  so a reducer is a function into `Except String (State × Storage)`.
* `localStorage` is the record `Storage` of the two keys the program uses.
  Writes are taken to succeed (no quota error).
* `JSON.parse`, `JSON.stringify` and the conversion of a value to a property
  key are built-ins of the engine; they are the fields of `Env` and every
  theorem holds for all of their behaviours.
* Library behaviour that the code relies on is documented where it is used
  (`Promise.allSettled`, `createAsyncThunk`, `rejectWithValue`).
-/

set_option autoImplicit false

namespace MyCropMap

/-! ## JavaScript values -/

/-- JavaScript data values: JSON data and `undefined`. -/
inductive JsVal where
  | undefined
  | null
  | bool (b : Bool)
  | num (q : ℚ)
  | str (s : String)
  | arr (items : List JsVal)
  | obj (props : List (String × JsVal))

/-- Own enumerable properties of an object, in insertion order. -/
abbrev Props := List (String × JsVal)

namespace JsVal

instance : Inhabited JsVal := ⟨JsVal.undefined⟩

/-- The values on which a property read throws: `null` and `undefined`. -/
def isNullish : JsVal → Bool
  | undefined => true
  | null => true
  | _ => false

/-- Truthiness (`ToBoolean`): what `if (v)`, `!v`, `a && b` and `a || b` test. -/
def truthy : JsVal → Bool
  | undefined => false
  | null => false
  | bool b => b
  | num q => decide (q ≠ 0)
  | str s => decide (s ≠ "")
  | arr _ => true
  | obj _ => true

/-- Strict equality `a === b`.  Primitives compare by value.  Arrays and
objects compare by reference; the embedding has no references, so two
structured values count as two distinct objects. -/
def strictEq : JsVal → JsVal → Bool
  | undefined, undefined => true
  | null, null => true
  | bool a, bool b => decide (a = b)
  | num a, num b => decide (a = b)
  | str a, str b => decide (a = b)
  | _, _ => false

end JsVal

/-- The message of the `TypeError` raised by a property read on `null` or
`undefined`, or by calling something that is not a function.  The wording is
the engine's; it is never empty. -/
def typeErrorMessage : String := "TypeError: cannot read properties of null or undefined"

namespace Props

/-- Property lookup `o[k]` on the own properties of an object: `undefined`
when the key is absent. -/
def get : Props → String → JsVal
  | [], _ => JsVal.undefined
  | (k, v) :: rest, key => if k = key then v else get rest key

/-- Whether the object has an own property `k`. -/
def has : Props → String → Bool
  | [], _ => false
  | (k, _) :: rest, key => if k = key then true else has rest key

/-- Property assignment `o[k] = v`: an existing key keeps its position and
takes the new value, a new key is added at the end. -/
def set : Props → String → JsVal → Props
  | [], key, v => [(key, v)]
  | (k, w) :: rest, key, v => if k = key then (k, v) :: rest else (k, w) :: set rest key v

/-- Copying every property of `src` into `target`, in order: the effect of
`...src` inside an object literal whose earlier part built `target`. -/
def assign (target src : Props) : Props :=
  src.foldl (fun acc kv => set acc kv.1 kv.2) target

end Props

namespace JsVal

/-- Property read `v.k` (or `v[k]`) for a key that is no built-in member (the
program reads `imageName`, `latitude`, `longitude`, `data`, `success`,
`error`, `file`, `secure_url`, `public_id`): throws on `null` and `undefined`, looks the key up
on an object, and is `undefined` on every other value. -/
def getProp : JsVal → String → Except String JsVal
  | undefined, _ => Except.error typeErrorMessage
  | null, _ => Except.error typeErrorMessage
  | obj ps, k => Except.ok (Props.get ps k)
  | _, _ => Except.ok JsVal.undefined

/-- The own enumerable properties that an object spread `...v` copies: the
properties of an object, the indexed elements of an array, the indexed
characters of a string, and nothing for any other value. -/
def ownProps : JsVal → Props
  | obj ps => ps
  | arr xs => xs.enum.map (fun ix => (toString ix.1, ix.2))
  | str s => s.data.enum.map (fun ic => (toString ic.1, JsVal.str (String.singleton ic.2)))
  | _ => []

end JsVal

/-! ## The engine and the durable cache -/

/-- The built-ins of the engine.  `jsonParse` is `JSON.parse` (an error is the
`SyntaxError` it throws); `jsonStringify v` is the text that
`localStorage.setItem(key, JSON.stringify(v))` stores. -/
structure Env where
  jsonParse : String → Except String JsVal
  jsonStringify : JsVal → String
  /-- Conversion of a value used as a property key (`o[v] = ...`). -/
  toPropertyKey : JsVal → String
  /-- A string used as a key is the key. -/
  toPropertyKey_str : ∀ s : String, toPropertyKey (JsVal.str s) = s

/-- The keys of `localStorage` that the program uses; `none` is a key that
is not set (`getItem` returns `null`). -/
structure Storage where
  farmPlants : Option String
  theme : Option String

/-! ## The plants slice (`features/plants/plantSlice.js`) -/

/-- State of the plants slice (`initialState`, lines 67-75). -/
structure PlantsState where
  plants : JsVal
  selectedPlant : JsVal
  loading : Bool
  processing : Props
  saving : Bool
  error : JsVal
  lastFetched : JsVal

/-- The initial state of the slice. -/
def PlantsState.initial : PlantsState :=
  { plants := JsVal.arr []
    selectedPlant := JsVal.null
    loading := false
    processing := []
    saving := false
    error := JsVal.null
    lastFetched := JsVal.null }

/-- The callback of `findIndex` in `savePlant.fulfilled` (line 116):
`(p) => p.imageName === action.payload.imageName`. -/
def sameImageName (payload p : JsVal) : Except String Bool := do
  let a ← p.getProp "imageName"
  let b ← payload.getProp "imageName"
  pure (JsVal.strictEq a b)

/-- The scan of `Array.prototype.findIndex`: the first index, counted from
`start`, whose element satisfies the callback; `none` is the result `-1`. -/
def findIndexFrom (payload : JsVal) : List JsVal → Nat → Except String (Option Nat)
  | [], _ => pure none
  | p :: rest, start => do
    let hit ← sameImageName payload p
    if hit then pure (some start) else findIndexFrom payload rest (start + 1)

/-- The call `state.plants.findIndex(...)`: a `TypeError` when `state.plants`
is not an array. -/
def findIndex (plants payload : JsVal) : Except String (Option Nat) :=
  match plants with
  | JsVal.arr xs => findIndexFrom payload xs 0
  | _ => Except.error typeErrorMessage

/-- Reducer `savePlant.fulfilled` (lines 113-125). -/
def savePlantFulfilled (env : Env) (store : Storage) (state : PlantsState) (payload : JsVal) :
    Except String (PlantsState × Storage) := do
  let state1 := { state with saving := false }
  let existingIndex ← findIndex state1.plants payload
  match state1.plants with
  | JsVal.arr xs =>
    let ys :=
      match existingIndex with
      | some i => xs.set i payload
      | none => xs ++ [payload]
    let state2 := { state1 with plants := JsVal.arr ys }
    pure (state2, { store with farmPlants := some (env.jsonStringify state2.plants) })
  | _ => Except.error typeErrorMessage

/-- Reducer `savePlant.rejected` (lines 126-129). -/
def savePlantRejected (store : Storage) (state : PlantsState) (payload : JsVal) :
    Except String (PlantsState × Storage) :=
  pure ({ state with saving := false, error := payload }, store)

/-- Reducer `savePlant.pending` (lines 110-112). -/
def savePlantPending (state : PlantsState) : PlantsState :=
  { state with saving := true }

/-- Outcome of an HTTP request made with axios: it resolves with a response
whose `data` is the body, or it rejects with an error (no connection, a
status outside 2xx) that carries a message. -/
inductive Http where
  | resolved (body : JsVal)
  | failed (message : String)

/-- The final action of a thunk built by `createAsyncThunk`: `fulfilled` with
the value the payload creator returned, or `rejected` with the value passed to
`rejectWithValue`, which becomes `action.payload`. -/
inductive ThunkAction where
  | fulfilled (payload : JsVal)
  | rejected (payload : JsVal)

/-- The field `action.payload` of a final action. -/
def ThunkAction.payload : ThunkAction → JsVal
  | ThunkAction.fulfilled p => p
  | ThunkAction.rejected p => p

/-- Function `extractLocationFromImage` (`services/api.js`, lines 12-37):
the body of the response when its `success` is truthy; the error of the
request, of the property read or of line 29 otherwise (the `catch` logs and
throws the same error again). -/
def extractLocationFromImage (http : Http) : Except String JsVal :=
  match http with
  | Http.failed message => Except.error message
  | Http.resolved body => do
    let success ← body.getProp "success"
    if !success.truthy then Except.error "Failed to extract location data"
    else pure body

/-- Thunk `processImage` (lines 11-29) for the argument
`{ imageName, imageUrl }` and a given outcome of the extraction request. -/
def processImage (imageName : String) (imageUrl : JsVal) (http : Http) : ThunkAction :=
  let attempt : Except String JsVal := do
    let response ← extractLocationFromImage http
    let data ← response.getProp "data"
    let latitude ← data.getProp "latitude"
    let data2 ← response.getProp "data"
    let longitude ← data2.getProp "longitude"
    pure (JsVal.obj [("imageName", JsVal.str imageName), ("imageUrl", imageUrl),
      ("latitude", latitude), ("longitude", longitude)])
  match attempt with
  | Except.ok payload => ThunkAction.fulfilled payload
  | Except.error message =>
    ThunkAction.rejected (JsVal.obj [("imageName", JsVal.str imageName),
      ("error", JsVal.str (if message = "" then "Failed to extract location" else message))])

/-- Function `savePlantData` (`services/api.js`, lines 44-64): the body of
the response, or the error of the request. -/
def savePlantData (http : Http) : Except String JsVal :=
  match http with
  | Http.failed message => Except.error message
  | Http.resolved body => pure body

/-- Thunk `savePlant` (lines 34-48): `now` is `new Date().toISOString()` at
the time the response arrives. -/
def savePlant (now : String) (plantData : JsVal) (http : Http) : ThunkAction :=
  match savePlantData http with
  | Except.ok response =>
    ThunkAction.fulfilled (JsVal.obj
      (Props.assign (Props.set (Props.assign [] plantData.ownProps) "timestamp" (JsVal.str now))
        response.ownProps))
  | Except.error message => ThunkAction.rejected (JsVal.str message)

/-- Function `fetchPlantData` (`services/api.js`, lines 70-89). -/
def fetchPlantData (http : Http) : Except String JsVal :=
  match http with
  | Http.failed message => Except.error message
  | Http.resolved body => pure body

/-- Thunk `fetchPlants` (lines 53-63): `response.data || []`. -/
def fetchPlants (http : Http) : ThunkAction :=
  let attempt : Except String JsVal := do
    let response ← fetchPlantData http
    let data ← response.getProp "data"
    pure (if data.truthy then data else JsVal.arr [])
  match attempt with
  | Except.ok payload => ThunkAction.fulfilled payload
  | Except.error message => ThunkAction.rejected (JsVal.str message)

/-- Reducer `selectPlant` (lines 77-79). -/
def selectPlant (state : PlantsState) (payload : JsVal) : PlantsState :=
  { state with selectedPlant := payload }

/-- Reducer `clearSelectedPlant` (lines 80-82). -/
def clearSelectedPlant (state : PlantsState) : PlantsState :=
  { state with selectedPlant := JsVal.null }

/-- Reducer `clearError` (lines 83-85). -/
def clearError (state : PlantsState) : PlantsState :=
  { state with error := JsVal.null }

/-- Reducer `loadFromCache` (lines 87-89). -/
def loadFromCache (state : PlantsState) (payload : JsVal) : PlantsState :=
  { state with plants := payload }

/-- Reducer `processImage.pending` (lines 94-96); `imageName` is
`action.meta.arg.imageName`. -/
def processImagePending (env : Env) (state : PlantsState) (imageName : JsVal) : PlantsState :=
  { state with
    processing := Props.set state.processing (env.toPropertyKey imageName)
      (JsVal.obj [("status", JsVal.str "processing")]) }

/-- Reducer `processImage.fulfilled` (lines 97-102). -/
def processImageFulfilled (env : Env) (state : PlantsState) (payload : JsVal) :
    Except String PlantsState := do
  let imageName ← payload.getProp "imageName"
  pure { state with
    processing := Props.set state.processing (env.toPropertyKey imageName)
      (JsVal.obj [("status", JsVal.str "success"), ("data", payload)]) }

/-- Reducer `processImage.rejected` (lines 103-108). -/
def processImageRejected (env : Env) (state : PlantsState) (payload : JsVal) :
    Except String PlantsState := do
  let imageName ← payload.getProp "imageName"
  let error ← payload.getProp "error"
  pure { state with
    processing := Props.set state.processing (env.toPropertyKey imageName)
      (JsVal.obj [("status", JsVal.str "failed"), ("error", error)]) }

/-- The reducer that the final action of `processImage` reaches. -/
def processImageSettled (env : Env) (state : PlantsState) : ThunkAction → Except String PlantsState
  | ThunkAction.fulfilled payload => processImageFulfilled env state payload
  | ThunkAction.rejected payload => processImageRejected env state payload

/-- Reducer `fetchPlants.pending` (lines 131-134). -/
def fetchPlantsPending (state : PlantsState) : PlantsState :=
  { state with loading := true, error := JsVal.null }

/-- Reducer `fetchPlants.fulfilled` (lines 135-141); `now` is
`new Date().toISOString()`. -/
def fetchPlantsFulfilled (env : Env) (now : String) (store : Storage) (state : PlantsState)
    (payload : JsVal) : Except String (PlantsState × Storage) :=
  let state1 := { state with loading := false, plants := payload, lastFetched := JsVal.str now }
  pure (state1, { store with farmPlants := some (env.jsonStringify state1.plants) })

/-- Reducer `fetchPlants.rejected` (lines 142-150).  `if (cached)` holds for
a text that is present and not empty; `JSON.parse` is called with no
handler around it. -/
def fetchPlantsRejected (env : Env) (store : Storage) (state : PlantsState) (payload : JsVal) :
    Except String (PlantsState × Storage) := do
  let state1 := { state with loading := false, error := payload }
  match store.farmPlants with
  | some cached =>
    if cached ≠ "" then do
      let parsed ← env.jsonParse cached
      pure ({ state1 with plants := parsed }, store)
    else pure (state1, store)
  | none => pure (state1, store)

/-- The effect of `AppContent` that loads the cached plants on mount
(`App.jsx`, lines 20-31): the parse and the dispatch sit inside `try`, and
the handler only logs. -/
def loadCachedPlants (env : Env) (store : Storage) (state : PlantsState) : PlantsState :=
  match store.farmPlants with
  | some cached =>
    if cached ≠ "" then
      match env.jsonParse cached with
      | Except.ok plants => loadFromCache state plants
      | Except.error _ => state
    else state
  | none => state

/-- Dispatching `savePlant(plantData)`: the pending reducer, the thunk, and
the reducer of its final action. -/
def dispatchSavePlant (env : Env) (now : String) (store : Storage) (state : PlantsState)
    (plantData : JsVal) (http : Http) : Except String (PlantsState × Storage) :=
  match savePlant now plantData http with
  | ThunkAction.fulfilled payload => savePlantFulfilled env store (savePlantPending state) payload
  | ThunkAction.rejected payload => savePlantRejected store (savePlantPending state) payload

/-! ## The upload slice (`features/upload/uploadSlice.js`) -/

/-- A `File` of the browser: the members the program reads. -/
structure File where
  name : String
  type : String
  size : Nat

/-- One element of the result of `Promise.allSettled` over the uploads.
`uploadToCloudinary` resolves with the parsed body of the response of the
storage service, `await response.json()` (`services/cloudinary.js`, lines
28-29), which is any JSON value, `null` included; everything it throws is an
`Error`, of which `message` is read. -/
inductive Settled where
  | fulfilled (value : JsVal)
  | rejected (message : String)

/-- The value `{ successful, failed }` that `uploadImages` returns. -/
structure UploadResult where
  successful : List JsVal
  failed : List JsVal

/-- The body of `results.forEach((result, index) => ...)` (lines 18-31):
`files[index]` is `undefined` past the end of `files`, and reading `name`
then throws; so does reading `secure_url` or `public_id` of a value that is
`null` or `undefined`. -/
def uploadStep (files : List File) (acc : UploadResult) (result : Settled) (index : Nat) :
    Except String UploadResult :=
  match files[index]? with
  | none => Except.error typeErrorMessage
  | some file =>
    match result with
    | Settled.fulfilled value => do
      let url ← value.getProp "secure_url"
      let cloudinaryId ← value.getProp "public_id"
      pure { acc with
        successful := acc.successful ++ [JsVal.obj [("file", JsVal.str file.name),
          ("url", url), ("cloudinaryId", cloudinaryId)]] }
    | Settled.rejected message =>
      pure { acc with
        failed := acc.failed ++ [JsVal.obj [("file", JsVal.str file.name),
          ("error", JsVal.str (if message = "" then "Upload failed" else message))]] }

/-- The loop `results.forEach` from position `index` on: an error thrown by
the callback ends the loop. -/
def uploadLoop (files : List File) : List Settled → Nat → UploadResult → Except String UploadResult
  | [], _, acc => pure acc
  | result :: rest, index, acc => do
    let acc1 ← uploadStep files acc result index
    uploadLoop files rest (index + 1) acc1

/-- Thunk `uploadImages` (lines 8-38).  `upload i file` is the way the
promise of the `i`-th call `uploadToCloudinary(file)` settles;
`Promise.allSettled` waits for all of them and keeps their order.  An error
thrown inside `try` is caught by the handler of lines 34-36 and the thunk
rejects as a whole, with `rejectWithValue(error.message)`. -/
def uploadImages (upload : Nat → File → Settled) (files : List File) :
    Except JsVal UploadResult :=
  let results := files.enum.map (fun ix => upload ix.1 ix.2)
  match uploadLoop files results 0 { successful := [], failed := [] } with
  | Except.ok payload => Except.ok payload
  | Except.error message => Except.error (JsVal.str message)

/-! ## The upload handler (`components/ImageUpload/ImageUpload.jsx`) -/

/-- One element of `processResults`, the result of `Promise.allSettled`
over the promises that `dispatch(processImage(...))` returns.  Such a promise
resolves with the final action of the thunk, be it fulfilled or rejected. -/
inductive SettledDispatch where
  | fulfilled (value : ThunkAction)
  | rejected

/-- Step 3 of `handleUpload` for one element (lines 70-83): the record for
which `savePlant` is dispatched, if the test of line 71 passes. -/
def saveDecision : SettledDispatch → Option JsVal
  | SettledDispatch.fulfilled value => if value.payload.truthy then some value.payload else none
  | SettledDispatch.rejected => none

/-- Step 2 of `handleUpload` (lines 63-67): one `processImage` per uploaded
file `{ file, url }`, with the outcome of its extraction request; the results
come back in the order of the uploaded files. -/
def processAll (jobs : List (String × JsVal × Http)) : List SettledDispatch :=
  jobs.map (fun job => SettledDispatch.fulfilled (processImage job.1 job.2.1 job.2.2))

/-- The records for which step 3 of `handleUpload` dispatches `savePlant`,
in the order of the dispatches. -/
def saveRequests (jobs : List (String × JsVal × Http)) : List JsVal :=
  (processAll jobs).filterMap saveDecision

/-- Function `isValidImageType` (`services/cloudinary.js`, lines 41-44). -/
def isValidImageType (file : File) : Bool :=
  ["image/jpeg", "image/jpg", "image/png"].contains file.type

/-- Function `isValidFileSize` (`services/cloudinary.js`, lines 51-54). -/
def isValidFileSize (file : File) : Bool :=
  decide (file.size ≤ 10 * 1024 * 1024)

/-- A message shown by `react-hot-toast`. -/
inductive Toast where
  | error (message : String)
  | success (message : String)

/-- The callback of `acceptedFiles.filter` in `onDrop` (lines 18-28): whether
the file is kept, and the message shown when it is not. -/
def validateFile (file : File) : Bool × List Toast :=
  if !isValidImageType file then
    (false, [Toast.error (file.name ++ ": Invalid file type. Please upload JPG or PNG.")])
  else if !isValidFileSize file then
    (false, [Toast.error (file.name ++ ": File too large. Max size is 10MB.")])
  else (true, [])

/-- Function `onDrop` (lines 16-38): the new value of `selectedFiles`, given
the one before, and the messages shown.  Of `rejectedFiles` only the length is
read. -/
def onDrop (selectedFiles acceptedFiles rejectedFiles : List File) : List File × List Toast :=
  let validFiles := acceptedFiles.filter (fun file => (validateFile file).1)
  let shown := acceptedFiles.flatMap (fun file => (validateFile file).2)
  let selection := if validFiles.length > 0 then selectedFiles ++ validFiles else selectedFiles
  let shown1 :=
    if validFiles.length > 0 then
      shown ++ [Toast.success (toString validFiles.length ++ " file(s) selected")]
    else shown
  let shown2 :=
    if rejectedFiles.length > 0 then
      shown1 ++ [Toast.error (toString rejectedFiles.length ++ " file(s) rejected")]
    else shown1
  (selection, shown2)

/-- An action of `processImage` that reaches the slice during step 2 of
`handleUpload`, for the uploaded file `job`: the pending action that
`dispatch(processImage(...))` sends at once, or the final action sent when the
extraction request has settled. -/
inductive ProcessEvent where
  | pending (job : String × JsVal × Http)
  | settled (job : String × JsVal × Http)

/-- The reducer that an action of `processImage` runs. -/
def applyEvent (env : Env) (state : PlantsState) : ProcessEvent → Except String PlantsState
  | ProcessEvent.pending job => pure (processImagePending env state (JsVal.str job.1))
  | ProcessEvent.settled job => processImageSettled env state (processImage job.1 job.2.1 job.2.2)

/-- The actions of step 2 of `handleUpload` (lines 63-67) for a batch: the
`map` dispatches the thunks one after the other, and each sends its pending
action before the first request is awaited; the final actions follow in
the order `completion` in which the requests settle. -/
def batchEvents (jobs completion : List (String × JsVal × Http)) : List ProcessEvent :=
  jobs.map ProcessEvent.pending ++ completion.map ProcessEvent.settled

/-! ## The map (`components/FarmMap/FarmMap.jsx`) -/

/-- The built-ins of the engine that `FarmMap` calls: `toLowerCase` and
`includes` of strings, and `sort` of arrays with the comparator of lines
83-91 for the current `sortBy`.  The comparator reads dates and compares
names by locale; whatever it answers, `sort` rearranges the array. -/
structure MapEnv where
  toLowerCase : String → String
  includes : String → String → Bool
  sort : List JsVal → List JsVal
  sort_perm : ∀ l : List JsVal, (sort l).Perm l

/-- The third operand of the callback of `plants.filter` (line 81):
`plant.imageName?.toLowerCase().includes(filterText.toLowerCase()) ||
!filterText`.  Optional chaining stops at `null` and `undefined`; on a value
that is no string `toLowerCase` is no function and the call throws. -/
def nameMatches (menv : MapEnv) (filterText : String) (plant : JsVal) : Except String Bool := do
  let imageName ← plant.getProp "imageName"
  match imageName with
  | JsVal.undefined => pure (decide (filterText = ""))
  | JsVal.null => pure (decide (filterText = ""))
  | JsVal.str name =>
    pure (menv.includes (menv.toLowerCase name) (menv.toLowerCase filterText) ||
      decide (filterText = ""))
  | _ => Except.error typeErrorMessage

/-- The callback of `plants.filter` (lines 78-82):
`plant.latitude && plant.longitude && (...)`, taken for its truthiness. -/
def showsOnMap (menv : MapEnv) (filterText : String) (plant : JsVal) : Except String Bool := do
  let latitude ← plant.getProp "latitude"
  if !latitude.truthy then pure false
  else do
    let longitude ← plant.getProp "longitude"
    if !longitude.truthy then pure false
    else nameMatches menv filterText plant

/-- The scan of `Array.prototype.filter` with the callback `showsOnMap`. -/
def filterPlants (menv : MapEnv) (filterText : String) : List JsVal → Except String (List JsVal)
  | [] => pure []
  | plant :: rest => do
    let keep ← showsOnMap menv filterText plant
    let others ← filterPlants menv filterText rest
    pure (if keep then plant :: others else others)

/-- The list `filteredPlants` (lines 77-91) that the map, the counter and
the side list render: a `TypeError` when `plants` is not an array. -/
def filteredPlants (menv : MapEnv) (plants : JsVal) (filterText : String) :
    Except String (List JsVal) :=
  match plants with
  | JsVal.arr xs => do
    let kept ← filterPlants menv filterText xs
    pure (menv.sort kept)
  | _ => Except.error typeErrorMessage

/-- The list `bounds` of `MapBounds` (lines 39-41): the coordinates of the
plants that pass `p.latitude && p.longitude`. -/
def mapBounds : List JsVal → Except String (List (JsVal × JsVal))
  | [] => pure []
  | p :: rest => do
    let latitude ← p.getProp "latitude"
    let keep ← (if !latitude.truthy then pure false
      else do
        let longitude ← p.getProp "longitude"
        pure longitude.truthy : Except String Bool)
    let others ← mapBounds rest
    if keep then do
      let lat ← p.getProp "latitude"
      let lon ← p.getProp "longitude"
      pure ((lat, lon) :: others)
    else pure others

/-! ## The UI slice (`features/ui/uiSlice.js`) -/

/-- State of the UI slice (lines 5-10).  A notification is the object that
`addNotification` builds. -/
structure UiState where
  theme : JsVal
  currentView : JsVal
  sidebarOpen : Bool
  notifications : List Props

/-- The initial state (lines 5-10): `localStorage.getItem('theme') ||
'light'` is the stored text when there is one and it is not empty. -/
def uiInitial (store : Storage) : UiState :=
  { theme :=
      match store.theme with
      | some stored => if stored ≠ "" then JsVal.str stored else JsVal.str "light"
      | none => JsVal.str "light"
    currentView := JsVal.str "upload"
    sidebarOpen := true
    notifications := [] }

/-- Reducer `setTheme` (lines 12-15).  `setItem` stores the text of the
payload, which for the values of the model is its conversion to a key. -/
def setTheme (env : Env) (s : UiState × Storage) (payload : JsVal) : UiState × Storage :=
  ({ s.1 with theme := payload }, { s.2 with theme := some (env.toPropertyKey payload) })

/-- Reducer `toggleTheme` (lines 16-19). -/
def toggleTheme (s : UiState × Storage) : UiState × Storage :=
  let next : String := if JsVal.strictEq s.1.theme (JsVal.str "light") then "dark" else "light"
  ({ s.1 with theme := JsVal.str next }, { s.2 with theme := some next })

/-- Reducer `setCurrentView` (lines 20-22). -/
def setCurrentView (s : UiState × Storage) (payload : JsVal) : UiState × Storage :=
  ({ s.1 with currentView := payload }, s.2)

/-- Reducer `toggleSidebar` (lines 23-25). -/
def toggleSidebar (s : UiState × Storage) : UiState × Storage :=
  ({ s.1 with sidebarOpen := !s.1.sidebarOpen }, s.2)

/-- Reducer `addNotification` (lines 26-31); `now` is `Date.now()`. -/
def addNotification (s : UiState × Storage) (now : ℚ) (payload : JsVal) : UiState × Storage :=
  ({ s.1 with
      notifications := s.1.notifications ++
        [Props.assign [("id", JsVal.num now)] payload.ownProps] }, s.2)

/-- Reducer `removeNotification` (lines 32-36). -/
def removeNotification (s : UiState × Storage) (payload : JsVal) : UiState × Storage :=
  ({ s.1 with
      notifications := s.1.notifications.filter
        (fun n => !JsVal.strictEq (Props.get n "id") payload) }, s.2)

/-- Reducer `clearNotifications` (lines 37-39). -/
def clearNotifications (s : UiState × Storage) : UiState × Storage :=
  ({ s.1 with notifications := [] }, s.2)

/-- The actions of the UI slice. -/
inductive UiOp where
  | setTheme (payload : JsVal)
  | toggleTheme
  | setCurrentView (payload : JsVal)
  | toggleSidebar
  | addNotification (now : ℚ) (payload : JsVal)
  | removeNotification (payload : JsVal)
  | clearNotifications

/-- The reducer that an action of the UI slice runs. -/
def applyUiOp (env : Env) (s : UiState × Storage) : UiOp → UiState × Storage
  | UiOp.setTheme payload => setTheme env s payload
  | UiOp.toggleTheme => toggleTheme s
  | UiOp.setCurrentView payload => setCurrentView s payload
  | UiOp.toggleSidebar => toggleSidebar s
  | UiOp.addNotification now payload => addNotification s now payload
  | UiOp.removeNotification payload => removeNotification s payload
  | UiOp.clearNotifications => clearNotifications s

/-! ## A small engine for the worked examples -/

/-- The text of a snapshot of three records, as `JSON.stringify` writes it. -/
def snapshotText : String :=
  "[\x7b\"imageName\":\"a.jpg\"\x7d,\x7b\"imageName\":\"b.jpg\"\x7d,\x7b\"imageName\":\"c.jpg\"\x7d]"

/-- The three records of `snapshotText`. -/
def snapshotRecords : JsVal :=
  JsVal.arr [JsVal.obj [("imageName", JsVal.str "a.jpg")],
    JsVal.obj [("imageName", JsVal.str "b.jpg")], JsVal.obj [("imageName", JsVal.str "c.jpg")]]

/-- A text that is not JSON. -/
def corruptText : String := "\x7bnot json"

/-- An engine for the examples.  It parses the texts that occur in them the
way `JSON.parse` does: `[]`, the snapshot of three records, and a
`SyntaxError` on a text that is not JSON.  Strings are their own keys. -/
def exampleEnv : Env :=
  { jsonParse := fun text =>
      if text = "[]" then Except.ok (JsVal.arr [])
      else if text = snapshotText then Except.ok snapshotRecords
      else Except.error "SyntaxError: unexpected token in JSON"
    jsonStringify := fun _ => "[]"
    toPropertyKey := fun v =>
      match v with
      | JsVal.str s => s
      | _ => "undefined"
    toPropertyKey_str := fun _ => rfl }

/-! ## Definitions used to state the properties -/

/-- The comparison that the upsert makes between an entry and the saved
record, for two values on which a property read does not throw. -/
def nameEq (p r : JsVal) : Bool :=
  match p.getProp "imageName", r.getProp "imageName" with
  | Except.ok a, Except.ok b => JsVal.strictEq a b
  | _, _ => false

/-- Whether the `imageName` of an entry is the string `n`. -/
def hasImageName (n : String) (p : JsVal) : Bool :=
  match p.getProp "imageName" with
  | Except.ok v => JsVal.strictEq v (JsVal.str n)
  | Except.error _ => false

/-- The upsert as a function on lists: the record takes the place of the first
entry that has its name, or goes to the end. -/
def upsertList (r : JsVal) : List JsVal → List JsVal
  | [] => [r]
  | p :: rest => if nameEq p r then r :: rest else p :: upsertList r rest

/-- A record: an object, whose keys are distinct. -/
def isRecord : JsVal → Prop
  | JsVal.obj ps => (ps.map Prod.fst).Nodup
  | _ => False

/-- Two saves of `r1` and then `r2`, each dispatched when the one before has
settled. -/
def saveTwice (env : Env) (now1 now2 : String) (store : Storage) (state : PlantsState)
    (r1 r2 : JsVal) (http1 http2 : Http) : Except String (PlantsState × Storage) := do
  let after1 ← dispatchSavePlant env now1 store state r1 http1
  dispatchSavePlant env now2 after1.2 after1.1 r2 http2

/-- The collection that a reducer leaves, when it does not throw. -/
def plantsAfter (result : Except String (PlantsState × Storage)) : Except String JsVal :=
  result.map (fun after => after.1.plants)

/-- The member `key` of a value, where there is one to read: `undefined` on
`null` and `undefined`, on which the read itself throws. -/
def fieldOf (value : JsVal) (key : String) : JsVal :=
  match value.getProp key with
  | Except.ok v => v
  | Except.error _ => JsVal.undefined

/-- The entry of `successful` that the specification gives a file whose
upload fulfilled with `value`: the name of the file, the returned url and id. -/
def successEntry (file : File) (value : JsVal) : JsVal :=
  JsVal.obj [("file", JsVal.str file.name), ("url", fieldOf value "secure_url"),
    ("cloudinaryId", fieldOf value "public_id")]

/-- The entry of `failed` that the specification gives a file whose upload
rejected: the name of the file and an error text. -/
def failureEntry (file : File) (message : String) : JsVal :=
  JsVal.obj [("file", JsVal.str file.name),
    ("error", JsVal.str (if message = "" then "Upload failed" else message))]

/-- The entry of `successful` for the `i`-th file, if its upload fulfilled. -/
def successAt (upload : Nat → File → Settled) (ix : Nat × File) : Option JsVal :=
  match upload ix.1 ix.2 with
  | Settled.fulfilled value => some (successEntry ix.2 value)
  | Settled.rejected _ => none

/-- The entry of `failed` for the `i`-th file, if its upload rejected. -/
def failureAt (upload : Nat → File → Settled) (ix : Nat × File) : Option JsVal :=
  match upload ix.1 ix.2 with
  | Settled.fulfilled _ => none
  | Settled.rejected message => some (failureEntry ix.2 message)

/-- The list `successful` as the specification words it: the files whose
upload fulfilled, in input order. -/
def successfulSpec (upload : Nat → File → Settled) (files : List File) : List JsVal :=
  files.enum.filterMap (successAt upload)

/-- The list `failed` as the specification words it: the files whose upload
rejected, in input order. -/
def failedSpec (upload : Nat → File → Settled) (files : List File) : List JsVal :=
  files.enum.filterMap (failureAt upload)

/-- The file name that an entry of `successful` or `failed` carries. -/
def entryName (entry : JsVal) : String :=
  match entry.getProp "file" with
  | Except.ok (JsVal.str name) => name
  | _ => ""

/-- The entry of the processing map for a file name, after a reducer of
`processImage` that does not throw. -/
def statusAfter (result : Except String PlantsState) (imageName : String) : Except String JsVal :=
  result.map (fun after => Props.get after.processing imageName)

/-! ### Worked examples -/

/-- A record for `a.jpg`. -/
def plantA : JsVal :=
  JsVal.obj [("imageName", JsVal.str "a.jpg"), ("imageUrl", JsVal.str "https://cdn/x/a.jpg"),
    ("latitude", JsVal.num 1), ("longitude", JsVal.num 2)]

/-- A later record for `a.jpg`, with other coordinates. -/
def plantA2 : JsVal :=
  JsVal.obj [("imageName", JsVal.str "a.jpg"), ("imageUrl", JsVal.str "https://cdn/x/a.jpg"),
    ("latitude", JsVal.num 3), ("longitude", JsVal.num 4)]

/-- A record for `b.jpg`. -/
def plantB : JsVal :=
  JsVal.obj [("imageName", JsVal.str "b.jpg"), ("imageUrl", JsVal.str "https://cdn/x/b.jpg"),
    ("latitude", JsVal.num 5), ("longitude", JsVal.num 6)]

/-- A state whose collection holds the records for `b.jpg` and `a.jpg`. -/
def stateBA : PlantsState :=
  { PlantsState.initial with plants := JsVal.arr [plantB, plantA] }

/-- A response of the persistence service that carries coordinates of its
own. -/
def responseWithCoordinates : JsVal :=
  JsVal.obj [("latitude", JsVal.num 0), ("longitude", JsVal.num 0)]

/-- A response of the persistence service that only acknowledges. -/
def responseAck : JsVal :=
  JsVal.obj [("status", JsVal.str "ok")]

/-- Three files of a batch. -/
def threeFiles : List File :=
  [{ name := "a.jpg", type := "image/jpeg", size := 2097152 },
    { name := "b.jpg", type := "image/jpeg", size := 1024 },
    { name := "c.png", type := "image/png", size := 4096 }]

/-- The body with which the storage service answers the upload of a file. -/
def uploadedBody (file : File) : JsVal :=
  JsVal.obj [("secure_url", JsVal.str ("https://cdn/x/" ++ file.name)),
    ("public_id", JsVal.str ("farm-crops/" ++ file.name))]

/-- Uploads of which the second fails and the others succeed. -/
def secondUploadFails (index : Nat) (file : File) : Settled :=
  if index = 1 then Settled.rejected "Upload failed: Bad Request"
  else Settled.fulfilled (uploadedBody file)

/-- Uploads that all fulfil, the second with the body `null`. -/
def secondBodyNull (index : Nat) (file : File) : Settled :=
  if index = 1 then Settled.fulfilled JsVal.null
  else Settled.fulfilled (uploadedBody file)

/-- Uploads of which the first fails, the second fulfils with the body
`null` and the others succeed. -/
def failureThenNullBody (index : Nat) (file : File) : Settled :=
  if index = 0 then Settled.rejected "Upload failed: Bad Request"
  else if index = 1 then Settled.fulfilled JsVal.null
  else Settled.fulfilled (uploadedBody file)

/-- The extraction of `a.jpg` fails: the service answers with `success`
false, on HTTP 200. -/
def jobA : String × JsVal × Http :=
  ("a.jpg", JsVal.str "https://cdn/x/a.jpg",
    Http.resolved (JsVal.obj [("success", JsVal.bool false)]))

/-- The extraction of `b.jpg` succeeds. -/
def jobB : String × JsVal × Http :=
  ("b.jpg", JsVal.str "https://cdn/x/b.jpg",
    Http.resolved (JsVal.obj [("success", JsVal.bool true),
      ("data", JsVal.obj [("latitude", JsVal.num 5), ("longitude", JsVal.num 6)])]))

/-- The payload of the rejected action of `processImage` for `a.jpg`. -/
def rejectedA : JsVal :=
  JsVal.obj [("imageName", JsVal.str "a.jpg"),
    ("error", JsVal.str "Failed to extract location data")]

/-- A response of the extraction service with `success` true whose data has
a longitude and no latitude. -/
def bodyWithoutLatitude : JsVal :=
  JsVal.obj [("success", JsVal.bool true), ("data", JsVal.obj [("longitude", JsVal.num 77)])]

/-- A response of the extraction service with `success` true and no data. -/
def bodyWithoutData : JsVal :=
  JsVal.obj [("success", JsVal.bool true)]

/-- A cache whose entry `farmPlants` is the snapshot of three records. -/
def snapshotStorage : Storage :=
  { farmPlants := some snapshotText, theme := none }

/-- A cache whose entry `farmPlants` is not JSON. -/
def corruptStorage : Storage :=
  { farmPlants := some corruptText, theme := none }

/-- A second file named `a.jpg` in the same batch, whose extraction
succeeds. -/
def jobA2 : String × JsVal × Http :=
  ("a.jpg", JsVal.str "https://cdn/x/a-2.jpg",
    Http.resolved (JsVal.obj [("success", JsVal.bool true),
      ("data", JsVal.obj [("latitude", JsVal.num 3), ("longitude", JsVal.num 4)])]))

/-- A record that already carries a timestamp, the time of capture. -/
def plantWithTimestamp : JsVal :=
  JsVal.obj [("imageName", JsVal.str "a.jpg"), ("imageUrl", JsVal.str "https://cdn/x/a.jpg"),
    ("latitude", JsVal.num 1), ("longitude", JsVal.num 2),
    ("timestamp", JsVal.str "2024-05-01T08:00:00.000Z")]

/-- A response of the extraction service, on HTTP 200, with `success` false
and coordinates in its data. -/
def bodyUnsuccessful : JsVal :=
  JsVal.obj [("success", JsVal.bool false),
    ("data", JsVal.obj [("latitude", JsVal.num 1), ("longitude", JsVal.num 2)])]

/-- A file whose type is `image/jpg` and whose size is 1 KB. -/
def jpgFile : File :=
  { name := "x.jpg", type := "image/jpg", size := 1024 }

/-- A JPEG file of 15 MB. -/
def bigFile : File :=
  { name := "big.jpg", type := "image/jpeg", size := 15 * 1024 * 1024 }

/-- A PNG file of exactly 10 MB. -/
def limitFile : File :=
  { name := "limit.png", type := "image/png", size := 10 * 1024 * 1024 }

/-- A cache with no entry. -/
def emptyStorage : Storage :=
  { farmPlants := none, theme := none }

/-! ### The reachable states -/

/-- No two entries of the collection have the same `imageName`. -/
def UniqueNames : JsVal → Prop
  | JsVal.arr xs => xs.Pairwise (fun p q => nameEq p q = false)
  | _ => True

/-- The operations of the Plant Collection Store: the actions that reach a
reducer of the slice which touches the collection, the selection or the
error. -/
inductive StoreOp where
  | savePlantFulfilled (payload : JsVal)
  | savePlantRejected (reason : JsVal)
  | fetchPlantsFulfilled (now : String) (payload : JsVal)
  | fetchPlantsRejected (reason : JsVal)
  | loadFromCache (payload : JsVal)
  | selectPlant (payload : JsVal)
  | clearSelectedPlant
  | clearError

/-- The reducer that an operation runs, on the state and the cache. -/
def applyOp (env : Env) (s : PlantsState × Storage) : StoreOp → Except String (PlantsState × Storage)
  | StoreOp.savePlantFulfilled payload => savePlantFulfilled env s.2 s.1 payload
  | StoreOp.savePlantRejected reason => savePlantRejected s.2 s.1 reason
  | StoreOp.fetchPlantsFulfilled now payload => fetchPlantsFulfilled env now s.2 s.1 payload
  | StoreOp.fetchPlantsRejected reason => fetchPlantsRejected env s.2 s.1 reason
  | StoreOp.loadFromCache payload => Except.ok (loadFromCache s.1 payload, s.2)
  | StoreOp.selectPlant payload => Except.ok (selectPlant s.1 payload, s.2)
  | StoreOp.clearSelectedPlant => Except.ok (clearSelectedPlant s.1, s.2)
  | StoreOp.clearError => Except.ok (clearError s.1, s.2)

/-- The states reachable from the initial state, with the cache `store0` of
earlier sessions, by a sequence of store operations.  An operation whose
reducer throws leaves the state as it was and is no step. -/
inductive Reachable (env : Env) (store0 : Storage) : PlantsState × Storage → Prop where
  | init : Reachable env store0 (PlantsState.initial, store0)
  | step (s s2 : PlantsState × Storage) (op : StoreOp) :
      Reachable env store0 s → applyOp env s op = Except.ok s2 → Reachable env store0 s2

/-- The list that an operation installs wholesale, if it installs one, has
distinct names: the payload of `fetchPlants.fulfilled` and of `loadFromCache`,
and the snapshot that `fetchPlants.rejected` reads from the cache. -/
def installsUniqueNames (env : Env) (s : PlantsState × Storage) : StoreOp → Prop
  | StoreOp.fetchPlantsFulfilled _ payload => UniqueNames payload
  | StoreOp.loadFromCache payload => UniqueNames payload
  | StoreOp.fetchPlantsRejected _ =>
    ∀ cached parsed, s.2.farmPlants = some cached → env.jsonParse cached = Except.ok parsed →
      UniqueNames parsed
  | _ => True

/-- The states reachable by store operations of which every wholesale
replacement installs a list with distinct names. -/
inductive ReachableUnique (env : Env) (store0 : Storage) : PlantsState × Storage → Prop where
  | init : ReachableUnique env store0 (PlantsState.initial, store0)
  | step (s s2 : PlantsState × Storage) (op : StoreOp) :
      ReachableUnique env store0 s → installsUniqueNames env s op →
      applyOp env s op = Except.ok s2 → ReachableUnique env store0 s2

/-! ### The status of a file -/

/-- The file name that an action of `processImage` is about. -/
def ProcessEvent.imageName : ProcessEvent → String
  | ProcessEvent.pending job => job.1
  | ProcessEvent.settled job => job.1

/-- The status that an action of `processImage` stands for. -/
def ProcessEvent.status : ProcessEvent → String
  | ProcessEvent.pending _ => "processing"
  | ProcessEvent.settled job =>
    match processImage job.1 job.2.1 job.2.2 with
    | ThunkAction.fulfilled _ => "success"
    | ThunkAction.rejected _ => "failed"

/-- The `status` of the entry of the processing map for a file name. -/
def statusOf (state : PlantsState) (imageName : String) : JsVal :=
  match Props.get state.processing imageName with
  | JsVal.obj ps => Props.get ps "status"
  | _ => JsVal.undefined

/-- The sequence of status values written for a file name while the actions
run: after each action about the name, the status that the map then holds
for it. -/
def statusHistory (env : Env) (imageName : String) : PlantsState → List ProcessEvent → List JsVal
  | _, [] => []
  | state, event :: rest =>
    match applyEvent env state event with
    | Except.ok next =>
      if event.imageName = imageName then
        statusOf next imageName :: statusHistory env imageName next rest
      else statusHistory env imageName next rest
    | Except.error _ => statusHistory env imageName state rest

/-- The check that the specification words: the type is `image/jpeg` or
`image/png` and the size is at most 10 MB. -/
def passesSpec (file : File) : Bool :=
  (decide (file.type = "image/jpeg") || decide (file.type = "image/png")) &&
    decide (file.size ≤ 10 * 1024 * 1024)

/-- The check that `onDrop` applies, in words: the type is one of
`image/jpeg`, `image/jpg`, `image/png` and the size is at most 10 MB. -/
def passesChecks (file : File) : Bool :=
  (decide (file.type = "image/jpeg") || decide (file.type = "image/jpg") ||
      decide (file.type = "image/png")) &&
    decide (file.size ≤ 10485760)

/-! ### Records on the map -/

/-- A record with valid coordinates, in the words of the specification: a
latitude that is a number in `[-90, 90]` and a longitude that is a number in
`[-180, 180]`. -/
def hasValidCoordinates (plant : JsVal) : Prop :=
  ∃ latitude longitude : ℚ,
    plant.getProp "latitude" = Except.ok (JsVal.num latitude) ∧
    plant.getProp "longitude" = Except.ok (JsVal.num longitude) ∧
    -90 ≤ latitude ∧ latitude ≤ 90 ∧ -180 ≤ longitude ∧ longitude ≤ 180

/-- A record that lacks a latitude or a longitude: the field is absent, or
it is `null`. -/
def lacksCoordinate (plant : JsVal) : Prop :=
  ∃ key, (key = "latitude" ∨ key = "longitude") ∧
    (plant.getProp key = Except.ok JsVal.undefined ∨ plant.getProp key = Except.ok JsVal.null)

/-- Whether the characters `needle` stand at the start of `text`. -/
def startsWithChars : List Char → List Char → Bool
  | [], _ => true
  | _ :: _, [] => false
  | a :: needle, b :: text => a == b && startsWithChars needle text

/-- Whether the characters `needle` occur in `text`, one after the other. -/
def occursIn (needle : List Char) : List Char → Bool
  | [] => needle.isEmpty
  | c :: text => startsWithChars needle (c :: text) || occursIn needle text

/-- An engine for the examples of the map: ASCII lower case, `includes` as
the search of one text in another, and a sort that keeps the order (as when
the comparator answers 0, `sort` being stable). -/
def exampleMapEnv : MapEnv :=
  { toLowerCase := String.toLower
    includes := fun text needle => occursIn needle.data text.data
    sort := fun l => l
    sort_perm := fun l => List.Perm.refl l }

/-- A record of a plant on the equator. -/
def equatorPlant : JsVal :=
  JsVal.obj [("imageName", JsVal.str "equator.jpg"),
    ("imageUrl", JsVal.str "https://cdn/x/equator.jpg"),
    ("latitude", JsVal.num 0), ("longitude", JsVal.num 78)]

/-! ### The theme -/

/-- The UI states reachable from the initial state, read from the storage
`store0`, by a sequence of actions of the slice. -/
inductive UiReachable (env : Env) (store0 : Storage) : UiState × Storage → Prop where
  | init : UiReachable env store0 (uiInitial store0, store0)
  | step (s : UiState × Storage) (op : UiOp) :
      UiReachable env store0 s → UiReachable env store0 (applyUiOp env s op)

/-- The stored theme is absent, empty, `light` or `dark`. -/
def validStoredTheme (store : Storage) : Prop :=
  store.theme = none ∨ store.theme = some "" ∨ store.theme = some "light" ∨
    store.theme = some "dark"

/-- An action that sets the theme sets it to `light` or to `dark`. -/
def validUiOp : UiOp → Prop
  | UiOp.setTheme payload => payload = JsVal.str "light" ∨ payload = JsVal.str "dark"
  | _ => True

/-- The UI states reachable from an initial state whose stored theme is
absent, empty, `light` or `dark`, by actions of which every `setTheme` sets
`light` or `dark`. -/
inductive UiReachableValid (env : Env) (store0 : Storage) : UiState × Storage → Prop where
  | init : validStoredTheme store0 → UiReachableValid env store0 (uiInitial store0, store0)
  | step (s : UiState × Storage) (op : UiOp) :
      UiReachableValid env store0 s → validUiOp op →
      UiReachableValid env store0 (applyUiOp env s op)

/-- The theme flag is `light` or `dark`. -/
def isLightOrDark (theme : JsVal) : Prop :=
  theme = JsVal.str "light" ∨ theme = JsVal.str "dark"

/-- A storage in which another program has left the theme `blue`. -/
def blueStorage : Storage :=
  { farmPlants := none, theme := some "blue" }

/-! ## Theorems -/

/-! ### Reading properties -/

theorem getProp_ok_of_not_nullish (v : JsVal) (k : String) (h : v.isNullish = false) :
    ∃ w, v.getProp k = Except.ok w := by
  cases v <;> simp [JsVal.getProp, JsVal.isNullish] at h ⊢

theorem sameImageName_eq_nameEq (r p : JsVal) (hp : p.isNullish = false)
    (hr : r.isNullish = false) : sameImageName r p = Except.ok (nameEq p r) := by
  obtain ⟨a, ha⟩ := getProp_ok_of_not_nullish p "imageName" hp
  obtain ⟨b, hb⟩ := getProp_ok_of_not_nullish r "imageName" hr
  simp only [sameImageName, nameEq, ha, hb]
  rfl

/-! ### The scan of `findIndex` -/

/-- The scan returns the first index whose entry has the name of the saved
record, or `-1` when no entry has it. -/
theorem findIndexFrom_spec (r : JsVal) (hr : r.isNullish = false) :
    ∀ (xs : List JsVal) (start : Nat), (∀ p ∈ xs, p.isNullish = false) →
      (∃ i p, findIndexFrom r xs start = Except.ok (some (start + i)) ∧ xs[i]? = some p ∧
          nameEq p r = true ∧ ∀ j q, j < i → xs[j]? = some q → nameEq q r = false) ∨
      (findIndexFrom r xs start = Except.ok none ∧ ∀ p ∈ xs, nameEq p r = false) := by
  intro xs
  induction xs with
  | nil =>
    intro start _
    right
    exact ⟨rfl, by simp⟩
  | cons x rest ih =>
    intro start hall
    have hx : x.isNullish = false := hall x (List.mem_cons_self _ _)
    have hrest : ∀ p ∈ rest, p.isNullish = false := fun p hp => hall p (List.mem_cons_of_mem _ hp)
    have hstep : findIndexFrom r (x :: rest) start =
        if nameEq x r then Except.ok (some start) else findIndexFrom r rest (start + 1) := by
      simp only [findIndexFrom, sameImageName_eq_nameEq r x hx hr]
      rfl
    by_cases hhit : nameEq x r = true
    · left
      refine ⟨0, x, ?_, by simp, hhit, ?_⟩
      · simp [hstep, hhit]
      · intro j q hj
        omega
    · have hmiss : nameEq x r = false := by simpa using hhit
      rcases ih (start + 1) hrest with ⟨i, p, hfind, hget, hname, hfirst⟩ | ⟨hfind, hnone⟩
      · left
        refine ⟨i + 1, p, ?_, by simpa using hget, hname, ?_⟩
        · rw [hstep, hmiss, hfind]
          simp only [Bool.false_eq_true, if_false]
          congr 2
          omega
        · intro j q hj hq
          cases j with
          | zero =>
            simp at hq
            rw [← hq]
            exact hmiss
          | succ j =>
            exact hfirst j q (by omega) (by simpa using hq)
      · right
        refine ⟨by rw [hstep, hmiss, hfind]; rfl, ?_⟩
        intro p hp
        rcases List.mem_cons.mp hp with rfl | hp
        · exact hmiss
        · exact hnone p hp

/-- What `savePlant.fulfilled` returns on an array, in terms of the result
of the scan. -/
theorem savePlantFulfilled_eq (env : Env) (store : Storage) (state : PlantsState)
    (xs : List JsVal) (r : JsVal) (found : Option Nat) (hplants : state.plants = JsVal.arr xs)
    (hfind : findIndexFrom r xs 0 = Except.ok found) :
    savePlantFulfilled env store state r =
      Except.ok
        ({ state with
            saving := false
            plants := JsVal.arr (found.elim (xs ++ [r]) (fun i => xs.set i r)) },
          { store with
            farmPlants := some (env.jsonStringify
              (JsVal.arr (found.elim (xs ++ [r]) (fun i => xs.set i r)))) }) := by
  simp only [savePlantFulfilled, findIndex, hplants, hfind]
  cases found <;> rfl

/-- C1. Upsert rule of `savePlant.fulfilled`: on a Store that is a list of
records (no entry is `null` or `undefined`, nor is the saved record `r`) the
reducer succeeds with a new list `ys`; when some entry has the `imageName` of
`r`, and `i` is the index of the first such entry, `ys` has the length of the
old list, holds `r` at `i` and agrees with the old list at every other index;
when no entry has that name, `ys` is the old list with `r` appended. -/
theorem savePlantFulfilled_upsert (env : Env) (store : Storage) (state : PlantsState)
    (xs : List JsVal) (r : JsVal) (hplants : state.plants = JsVal.arr xs)
    (hxs : ∀ p ∈ xs, p.isNullish = false) (hr : r.isNullish = false) :
    ∃ ys : List JsVal,
      savePlantFulfilled env store state r =
        Except.ok ({ state with saving := false, plants := JsVal.arr ys },
          { store with farmPlants := some (env.jsonStringify (JsVal.arr ys)) }) ∧
      (∀ (i : Nat) (p : JsVal), xs[i]? = some p → nameEq p r = true →
        (∀ (j : Nat) (q : JsVal), j < i → xs[j]? = some q → nameEq q r = false) →
        ys.length = xs.length ∧ ys[i]? = some r ∧ ∀ j : Nat, j ≠ i → ys[j]? = xs[j]?) ∧
      ((∀ p ∈ xs, nameEq p r = false) → ys = xs ++ [r]) := by
  rcases findIndexFrom_spec r hr xs 0 hxs with ⟨i, p, hfind, hget, hname, hfirst⟩ | ⟨hfind, hnone⟩
  · rw [Nat.zero_add] at hfind
    refine ⟨xs.set i r, savePlantFulfilled_eq env store state xs r (some i) hplants hfind, ?_, ?_⟩
    · intro i2 p2 hget2 hname2 hfirst2
      have hi : i2 = i := by
        rcases Nat.lt_trichotomy i2 i with h | h | h
        · have := hfirst i2 p2 h hget2
          rw [hname2] at this
          exact absurd this (by simp)
        · exact h
        · have := hfirst2 i p h hget
          rw [hname] at this
          exact absurd this (by simp)
      subst hi
      have hlt : i2 < xs.length := by
        rcases List.getElem?_eq_some.mp hget with ⟨h, _⟩
        exact h
      refine ⟨by simp, ?_, ?_⟩
      · simp [List.getElem?_set, hlt]
      · intro j hj
        rw [List.getElem?_set]
        simp [Ne.symm hj]
    · intro hall
      have hmem : p ∈ xs := List.getElem?_mem hget
      have := hall p hmem
      rw [hname] at this
      exact absurd this (by simp)
  · refine ⟨xs ++ [r], savePlantFulfilled_eq env store state xs r none hplants hfind, ?_, ?_⟩
    · intro i p hget hname _
      have hmem : p ∈ xs := List.getElem?_mem hget
      have := hnone p hmem
      rw [hname] at this
      exact absurd this (by simp)
    · intro _
      rfl

/-- C1, witness. Saving the later record for
`a.jpg` into the collection `[b.jpg, a.jpg]`. -/
theorem savePlantFulfilled_upsert_witness :
    (∀ p ∈ [plantB, plantA], p.isNullish = false) ∧
    ∃ ys : List JsVal,
      savePlantFulfilled exampleEnv emptyStorage stateBA plantA2 =
        Except.ok ({ stateBA with saving := false, plants := JsVal.arr ys },
          { emptyStorage with farmPlants := some (exampleEnv.jsonStringify (JsVal.arr ys)) }) ∧
      (∀ (i : Nat) (p : JsVal), [plantB, plantA][i]? = some p → nameEq p plantA2 = true →
        (∀ (j : Nat) (q : JsVal), j < i → [plantB, plantA][j]? = some q →
          nameEq q plantA2 = false) →
        ys.length = [plantB, plantA].length ∧ ys[i]? = some plantA2 ∧
          ∀ j : Nat, j ≠ i → ys[j]? = [plantB, plantA][j]?) ∧
      ((∀ p ∈ [plantB, plantA], nameEq p plantA2 = false) → ys = [plantB, plantA] ++ [plantA2]) :=
  ⟨by simp [plantA, plantB, JsVal.isNullish],
    savePlantFulfilled_upsert exampleEnv emptyStorage stateBA [plantB, plantA] plantA2 rfl
      (by simp [plantA, plantB, JsVal.isNullish]) rfl⟩

/-! ### Properties of objects -/

theorem Props.get_set_self (ps : Props) (k : String) (v : JsVal) :
    Props.get (Props.set ps k v) k = v := by
  induction ps with
  | nil => simp [Props.set, Props.get]
  | cons kv rest ih =>
    obtain ⟨k1, v1⟩ := kv
    by_cases h : k1 = k
    · simp [Props.set, Props.get, h]
    · simp [Props.set, Props.get, h, ih]

theorem Props.get_set_ne (ps : Props) (k key : String) (v : JsVal) (hne : k ≠ key) :
    Props.get (Props.set ps k v) key = Props.get ps key := by
  induction ps with
  | nil => simp [Props.set, Props.get, hne]
  | cons kv rest ih =>
    obtain ⟨k1, v1⟩ := kv
    by_cases h : k1 = k
    · subst h
      simp [Props.set, Props.get, hne]
    · by_cases h2 : k1 = key
      · subst h2
        simp [Props.set, Props.get, h]
      · simp [Props.set, Props.get, h, h2, ih]

theorem Props.mem_keys_of_has (ps : Props) (key : String) (h : Props.has ps key = true) :
    key ∈ ps.map Prod.fst := by
  induction ps with
  | nil => simp [Props.has] at h
  | cons kv rest ih =>
    obtain ⟨k1, v1⟩ := kv
    by_cases h1 : k1 = key
    · simp [h1]
    · simp only [Props.has, h1, if_false] at h
      simp [ih h]

/-- A spread does not touch a key that the spread value lacks. -/
theorem Props.get_assign_of_not_has (src : Props) (key : String) :
    ∀ target : Props, Props.has src key = false →
      Props.get (Props.assign target src) key = Props.get target key := by
  induction src with
  | nil =>
    intro target _
    rfl
  | cons kv rest ih =>
    obtain ⟨k1, v1⟩ := kv
    intro target h
    by_cases h1 : k1 = key
    · simp [Props.has, h1] at h
    · simp only [Props.has, h1, if_false] at h
      have := ih (Props.set target k1 v1) h
      simp only [Props.assign, List.foldl_cons] at this ⊢
      rw [this, Props.get_set_ne target k1 key v1 h1]

/-- A spread of an object with distinct keys gives every key it has the
value it has in that object. -/
theorem Props.get_assign_of_nodup (src : Props) (key : String) :
    ∀ target : Props, (src.map Prod.fst).Nodup →
      Props.get (Props.assign target src) key =
        if Props.has src key then Props.get src key else Props.get target key := by
  induction src with
  | nil =>
    intro target _
    rfl
  | cons kv rest ih =>
    obtain ⟨k1, v1⟩ := kv
    intro target hnodup
    have hnodup2 : (rest.map Prod.fst).Nodup := (List.nodup_cons.mp hnodup).2
    have hnotin : k1 ∉ rest.map Prod.fst := (List.nodup_cons.mp hnodup).1
    have := ih (Props.set target k1 v1) hnodup2
    simp only [Props.assign, List.foldl_cons] at this ⊢
    rw [this]
    by_cases h1 : k1 = key
    · subst h1
      have hhas : Props.has rest k1 = false := by
        by_contra hc
        exact hnotin (Props.mem_keys_of_has rest k1 (by simpa using hc))
      simp [hhas, Props.has, Props.get, Props.get_set_self]
    · simp [Props.has, Props.get, h1, Props.get_set_ne target k1 key v1 h1]

/-- The record that `savePlant` returns keeps, for a key other than
`timestamp` that the response lacks, the value of the input record. -/
theorem savePlant_payload_get (now : String) (ps : Props) (response : JsVal) (key : String)
    (hnodup : (ps.map Prod.fst).Nodup) (hkey : key ≠ "timestamp")
    (hresp : Props.has response.ownProps key = false) :
    Props.get (Props.assign (Props.set (Props.assign [] (JsVal.obj ps).ownProps) "timestamp"
      (JsVal.str now)) response.ownProps) key = Props.get ps key := by
  rw [Props.get_assign_of_not_has _ _ _ hresp, Props.get_set_ne _ _ _ _ (Ne.symm hkey)]
  simp only [JsVal.ownProps]
  rw [Props.get_assign_of_nodup ps key [] hnodup]
  by_cases h : Props.has ps key = true
  · simp [h]
  · have hget : Props.get ps key = JsVal.undefined := by
      clear hnodup
      induction ps with
      | nil => rfl
      | cons kv rest ih =>
        obtain ⟨k1, v1⟩ := kv
        by_cases h1 : k1 = key
        · simp [Props.has, h1] at h
        · simp only [Props.has, h1, if_false] at h
          simp [Props.get, h1, ih h]
    simp [h, hget, Props.get]

/-! ### The upsert as a list function -/

theorem set_eq_upsertList (r : JsVal) :
    ∀ (xs : List JsVal) (i : Nat) (p : JsVal), xs[i]? = some p → nameEq p r = true →
      (∀ (j : Nat) (q : JsVal), j < i → xs[j]? = some q → nameEq q r = false) →
      xs.set i r = upsertList r xs := by
  intro xs
  induction xs with
  | nil =>
    intro i p hget
    simp at hget
  | cons x rest ih =>
    intro i p hget hname hfirst
    cases i with
    | zero =>
      simp at hget
      subst hget
      simp [upsertList, hname]
    | succ k =>
      have hx : nameEq x r = false := hfirst 0 x (by omega) (by simp)
      have hrest := ih k p (by simpa using hget) hname
        (fun j q hj hq => hfirst (j + 1) q (by omega) (by simpa using hq))
      simp [upsertList, hx, hrest]

theorem append_eq_upsertList (r : JsVal) (xs : List JsVal)
    (hnone : ∀ p ∈ xs, nameEq p r = false) : xs ++ [r] = upsertList r xs := by
  induction xs with
  | nil => rfl
  | cons x rest ih =>
    have hx : nameEq x r = false := hnone x (List.mem_cons_self _ _)
    have hrest := ih (fun p hp => hnone p (List.mem_cons_of_mem _ hp))
    simp [upsertList, hx, hrest]

/-- The reducer `savePlant.fulfilled` computes the upsert. -/
theorem savePlantFulfilled_eq_upsertList (env : Env) (store : Storage) (state : PlantsState)
    (xs : List JsVal) (r : JsVal) (hplants : state.plants = JsVal.arr xs)
    (hxs : ∀ p ∈ xs, p.isNullish = false) (hr : r.isNullish = false) :
    savePlantFulfilled env store state r =
      Except.ok ({ state with saving := false, plants := JsVal.arr (upsertList r xs) },
        { store with farmPlants := some (env.jsonStringify (JsVal.arr (upsertList r xs))) }) := by
  rcases findIndexFrom_spec r hr xs 0 hxs with ⟨i, p, hfind, hget, hname, hfirst⟩ | ⟨hfind, hnone⟩
  · rw [Nat.zero_add] at hfind
    rw [savePlantFulfilled_eq env store state xs r (some i) hplants hfind]
    simp only [Option.elim, set_eq_upsertList r xs i p hget hname hfirst]
  · rw [savePlantFulfilled_eq env store state xs r none hplants hfind]
    simp only [Option.elim, append_eq_upsertList r xs hnone]

theorem mem_upsertList (r q : JsVal) (xs : List JsVal) (h : q ∈ upsertList r xs) :
    q = r ∨ q ∈ xs := by
  induction xs with
  | nil =>
    left
    simpa [upsertList] using h
  | cons x rest ih =>
    by_cases hx : nameEq x r = true
    · simp only [upsertList, hx, if_true] at h
      rcases List.mem_cons.mp h with h1 | h1
      · exact Or.inl h1
      · exact Or.inr (List.mem_cons_of_mem _ h1)
    · simp only [upsertList, hx, if_false, Bool.false_eq_true] at h
      rcases List.mem_cons.mp h with h1 | h1
      · right
        rw [h1]
        exact List.mem_cons_self _ _
      · rcases ih h1 with h2 | h2
        · exact Or.inl h2
        · exact Or.inr (List.mem_cons_of_mem _ h2)

theorem upsertList_not_nullish (r : JsVal) (xs : List JsVal) (hr : r.isNullish = false)
    (hxs : ∀ p ∈ xs, p.isNullish = false) : ∀ p ∈ upsertList r xs, p.isNullish = false := by
  intro p hp
  rcases mem_upsertList r p xs hp with h | h
  · rw [h]
    exact hr
  · exact hxs p h

/-! ### Names -/

theorem strictEq_eq_of_true (a b : JsVal) (h : JsVal.strictEq a b = true) : a = b := by
  cases a <;> cases b <;> simp [JsVal.strictEq] at h ⊢ <;> exact h

theorem nameEq_congr_left (p r q : JsVal) (h : nameEq p r = true) : nameEq r q = nameEq p q := by
  unfold nameEq at h ⊢
  cases hp : p.getProp "imageName" with
  | error e => simp [hp] at h
  | ok a =>
    cases hr : r.getProp "imageName" with
    | error e => simp [hp, hr] at h
    | ok b =>
      simp only [hp, hr] at h
      rw [strictEq_eq_of_true a b h]

theorem nameEq_eq_hasImageName (p r : JsVal) (n : String)
    (hr : r.getProp "imageName" = Except.ok (JsVal.str n)) : nameEq p r = hasImageName n p := by
  unfold nameEq hasImageName
  rw [hr]
  cases p.getProp "imageName" <;> rfl

theorem hasImageName_iff (p : JsVal) (n : String) :
    hasImageName n p = true ↔ p.getProp "imageName" = Except.ok (JsVal.str n) := by
  unfold hasImageName
  cases hp : p.getProp "imageName" with
  | error e => simp
  | ok a =>
    constructor
    · intro h
      rw [strictEq_eq_of_true a (JsVal.str n) h]
    · intro h
      injection h with h
      subst h
      simp [JsVal.strictEq]

/-- Saving into a collection with distinct names keeps the names distinct. -/
theorem upsertList_pairwise (r : JsVal) (xs : List JsVal)
    (huniq : xs.Pairwise (fun p q => nameEq p q = false)) :
    (upsertList r xs).Pairwise (fun p q => nameEq p q = false) := by
  induction xs with
  | nil => simp [upsertList]
  | cons x rest ih =>
    rcases List.pairwise_cons.mp huniq with ⟨hx, hrest⟩
    by_cases hname : nameEq x r = true
    · simp only [upsertList, hname, if_true]
      refine List.pairwise_cons.mpr ⟨?_, hrest⟩
      intro q hq
      rw [nameEq_congr_left x r q hname]
      exact hx q hq
    · simp only [upsertList, hname, if_false, Bool.false_eq_true]
      refine List.pairwise_cons.mpr ⟨?_, ih hrest⟩
      intro q hq
      rcases mem_upsertList r q rest hq with h | h
      · rw [h]
        simpa using hname
      · exact hx q h

/-- In a collection with distinct names at most one entry has the name `n`. -/
theorem filter_hasImageName_length_le_one (n : String) (xs : List JsVal)
    (huniq : xs.Pairwise (fun p q => nameEq p q = false)) :
    (xs.filter (hasImageName n)).length ≤ 1 := by
  have hsub : (xs.filter (hasImageName n)).Pairwise (fun p q => nameEq p q = false) :=
    List.Pairwise.sublist (List.filter_sublist xs) huniq
  have hall : ∀ p ∈ xs.filter (hasImageName n), hasImageName n p = true :=
    fun p hp => (List.mem_filter.mp hp).2
  generalize xs.filter (hasImageName n) = zs at hsub hall
  match zs, hsub, hall with
  | [], _, _ => simp
  | [_], _, _ => simp
  | a :: b :: _, hsub, hall =>
    exfalso
    have ha := (hasImageName_iff a n).mp (hall a (by simp))
    have hb := hall b (by simp)
    have hab : nameEq a b = false := (List.pairwise_cons.mp hsub).1 b (by simp)
    rw [nameEq_eq_hasImageName a b n ((hasImageName_iff b n).mp hb)] at hab
    rw [(hasImageName_iff a n).mpr ha] at hab
    exact absurd hab (by simp)

/-- After the upsert of a record named `n` into a collection with at most
one entry named `n`, the record is the one entry named `n`. -/
theorem upsertList_filter (r : JsVal) (n : String)
    (hr : r.getProp "imageName" = Except.ok (JsVal.str n)) :
    ∀ xs : List JsVal, (xs.filter (hasImageName n)).length ≤ 1 →
      (upsertList r xs).filter (hasImageName n) = [r] := by
  have hrn : hasImageName n r = true := (hasImageName_iff r n).mpr hr
  intro xs
  induction xs with
  | nil =>
    intro _
    simp [upsertList, hrn]
  | cons x rest ih =>
    intro hle
    by_cases hx : hasImageName n x = true
    · have hname : nameEq x r = true := by rw [nameEq_eq_hasImageName x r n hr, hx]
      simp only [List.filter_cons, hx, if_true, List.length_cons] at hle
      have hnil : rest.filter (hasImageName n) = [] := List.length_eq_zero.mp (by omega)
      simp [upsertList, hname, List.filter_cons, hrn, hnil]
    · have hname : nameEq x r = false := by
        rw [nameEq_eq_hasImageName x r n hr]
        simpa using hx
      simp only [List.filter_cons, hx, if_false, Bool.false_eq_true] at hle
      simp [upsertList, hname, List.filter_cons, hx, ih hle]

/-! ### Saving twice -/

theorem savePlant_resolved (now : String) (plantData response : JsVal) :
    savePlant now plantData (Http.resolved response) =
      ThunkAction.fulfilled (JsVal.obj
        (Props.assign (Props.set (Props.assign [] plantData.ownProps) "timestamp" (JsVal.str now))
          response.ownProps)) :=
  rfl

/-- A successful `savePlant` of `plantData`, as one step on the collection. -/
theorem dispatchSavePlant_resolved (env : Env) (now : String) (store : Storage)
    (state : PlantsState) (xs : List JsVal) (plantData response : JsVal)
    (hplants : state.plants = JsVal.arr xs) (hxs : ∀ p ∈ xs, p.isNullish = false) :
    dispatchSavePlant env now store state plantData (Http.resolved response) =
      Except.ok
        ({ state with
            saving := false
            plants := JsVal.arr (upsertList (savePlant now plantData (Http.resolved response)).payload
              xs) },
          { store with
            farmPlants := some (env.jsonStringify (JsVal.arr
              (upsertList (savePlant now plantData (Http.resolved response)).payload xs))) }) := by
  simp only [dispatchSavePlant, savePlant_resolved, ThunkAction.payload]
  exact savePlantFulfilled_eq_upsertList env store (savePlantPending state) xs _ hplants hxs rfl

/-- C2, counterexample. Two saves of records named `a.jpg` into the empty
Store, both successful; the response to the second carries coordinates
`(0, 0)`.  The one entry of the Store has latitude `0`, while the second
record has latitude `3`. -/
theorem save_twice_counterexample :
    plantsAfter (saveTwice exampleEnv "t1" "t2" emptyStorage PlantsState.initial plantA plantA2
        (Http.resolved responseAck) (Http.resolved responseWithCoordinates)) =
      Except.ok (JsVal.arr [JsVal.obj [("imageName", JsVal.str "a.jpg"),
        ("imageUrl", JsVal.str "https://cdn/x/a.jpg"), ("latitude", JsVal.num 0),
        ("longitude", JsVal.num 0), ("timestamp", JsVal.str "t2")]]) ∧
    plantA2.getProp "latitude" = Except.ok (JsVal.num 3) ∧
    JsVal.strictEq (JsVal.num 0) (JsVal.num 3) = false :=
  ⟨by rfl, by rfl, by simp [JsVal.strictEq]⟩

/-- C2, amended. Idempotence of save: for every Store with distinct
`imageName`s, every first save that succeeds, and every second save of a
record named `n` that succeeds with a response carrying no `imageName`,
`latitude` or `longitude` of its own, the Store afterwards holds exactly one
entry named `n`, and that entry has the coordinates of the second record. -/
theorem save_twice_idempotent (env : Env) (now1 now2 : String) (store : Storage)
    (state : PlantsState) (xs : List JsVal) (r1 r2 response1 response2 : JsVal) (n : String)
    (hplants : state.plants = JsVal.arr xs) (hxs : ∀ p ∈ xs, p.isNullish = false)
    (huniq : xs.Pairwise (fun p q => nameEq p q = false))
    (hrec : isRecord r2) (hname : r2.getProp "imageName" = Except.ok (JsVal.str n))
    (hresp : ∀ key ∈ ["imageName", "latitude", "longitude"],
      Props.has response2.ownProps key = false) :
    ∃ (st : PlantsState) (w : Storage) (ys : List JsVal) (e : JsVal),
      saveTwice env now1 now2 store state r1 r2 (Http.resolved response1)
          (Http.resolved response2) = Except.ok (st, w) ∧
      st.plants = JsVal.arr ys ∧
      ys.filter (hasImageName n) = [e] ∧
      e.getProp "latitude" = r2.getProp "latitude" ∧
      e.getProp "longitude" = r2.getProp "longitude" := by
  cases r2 with
  | obj ps =>
    have hnodup : (ps.map Prod.fst).Nodup := hrec
    have hget : ∀ key ∈ ["imageName", "latitude", "longitude"],
        (savePlant now2 (JsVal.obj ps) (Http.resolved response2)).payload.getProp key =
          Except.ok (Props.get ps key) := by
      intro key hkey
      have hts : key ≠ "timestamp" := by
        intro hc
        subst hc
        simp at hkey
      simp only [savePlant_resolved, ThunkAction.payload, JsVal.getProp]
      rw [savePlant_payload_get now2 ps response2 key hnodup hts (hresp key hkey)]
    have hname2 : (savePlant now2 (JsVal.obj ps) (Http.resolved response2)).payload.getProp
        "imageName" = Except.ok (JsVal.str n) := by
      rw [hget "imageName" (by simp)]
      exact hname
    have hstep1 := dispatchSavePlant_resolved env now1 store state xs r1 response1 hplants hxs
    have hys1 := upsertList_not_nullish
      (savePlant now1 r1 (Http.resolved response1)).payload xs rfl hxs
    have huniq1 := upsertList_pairwise
      (savePlant now1 r1 (Http.resolved response1)).payload xs huniq
    have hstep2 := dispatchSavePlant_resolved env now2
      { store with
        farmPlants := some (env.jsonStringify (JsVal.arr
          (upsertList (savePlant now1 r1 (Http.resolved response1)).payload xs))) }
      { state with
        saving := false
        plants := JsVal.arr (upsertList (savePlant now1 r1 (Http.resolved response1)).payload xs) }
      _ (JsVal.obj ps) response2 rfl hys1
    have hfinal := hstep2
    rw [show dispatchSavePlant env now2 _ _ (JsVal.obj ps) (Http.resolved response2) =
      saveTwice env now1 now2 store state r1 (JsVal.obj ps) (Http.resolved response1)
        (Http.resolved response2) from by simp only [saveTwice, hstep1]; rfl] at hfinal
    refine ⟨_, _, _, (savePlant now2 (JsVal.obj ps) (Http.resolved response2)).payload,
      hfinal, rfl, ?_, ?_, ?_⟩
    · exact upsertList_filter _ n hname2 _
        (filter_hasImageName_length_le_one n _ huniq1)
    · rw [hget "latitude" (by simp)]
      rfl
    · rw [hget "longitude" (by simp)]
      rfl
  | undefined => exact absurd hrec (by simp [isRecord])
  | null => exact absurd hrec (by simp [isRecord])
  | bool b => exact absurd hrec (by simp [isRecord])
  | num q => exact absurd hrec (by simp [isRecord])
  | str t => exact absurd hrec (by simp [isRecord])
  | arr items => exact absurd hrec (by simp [isRecord])

/-- C2, witness. The record for `a.jpg` is saved
twice into the collection `[b.jpg, a.jpg]`, the second time with new
coordinates, and the service only acknowledges. -/
theorem save_twice_idempotent_witness :
    ([plantB, plantA].Pairwise (fun p q => nameEq p q = false)) ∧ isRecord plantA2 ∧
    ∃ (st : PlantsState) (w : Storage) (ys : List JsVal) (e : JsVal),
      saveTwice exampleEnv "t1" "t2" emptyStorage stateBA plantA plantA2
          (Http.resolved responseAck) (Http.resolved responseAck) = Except.ok (st, w) ∧
      st.plants = JsVal.arr ys ∧
      ys.filter (hasImageName "a.jpg") = [e] ∧
      e.getProp "latitude" = plantA2.getProp "latitude" ∧
      e.getProp "longitude" = plantA2.getProp "longitude" :=
  ⟨by simp [plantA, plantB, nameEq, JsVal.getProp, Props.get, JsVal.strictEq],
    by simp [isRecord, plantA2],
    save_twice_idempotent exampleEnv "t1" "t2" emptyStorage stateBA [plantB, plantA] plantA plantA2
      responseAck responseAck "a.jpg" rfl (by simp [plantA, plantB, JsVal.isNullish])
      (by simp [plantA, plantB, nameEq, JsVal.getProp, Props.get, JsVal.strictEq])
      (by simp [isRecord, plantA2]) rfl
      (by simp [responseAck, JsVal.ownProps, Props.has])⟩

/-! ### The upload batch -/

theorem getProp_eq_fieldOf (value : JsVal) (key : String) (h : value.isNullish = false) :
    value.getProp key = Except.ok (fieldOf value key) := by
  cases value <;> simp [JsVal.isNullish] at h <;> rfl

/-- When no upload of the batch fulfils with `null` or `undefined`, the loop
of `uploadImages` over the files from position `k` on adds to the two lists
the entries of these files, in order, and does not throw. -/
theorem uploadLoop_eq (upload : Nat → File → Settled) (files : List File)
    (hvalues : ∀ (i : Nat) (file : File) (value : JsVal), files[i]? = some file →
      upload i file = Settled.fulfilled value → value.isNullish = false) :
    ∀ (suffix : List File) (k : Nat) (acc : UploadResult), files.drop k = suffix →
      uploadLoop files ((suffix.enumFrom k).map (fun ix => upload ix.1 ix.2)) k acc =
        Except.ok
          { successful := acc.successful ++ (suffix.enumFrom k).filterMap (successAt upload)
            failed := acc.failed ++ (suffix.enumFrom k).filterMap (failureAt upload) } := by
  intro suffix
  induction suffix with
  | nil =>
    intro k acc _
    simp [uploadLoop]
    rfl
  | cons x rest ih =>
    intro k acc hdrop
    have hget : files[k]? = some x := by
      have := List.getElem?_drop files k 0
      rw [hdrop] at this
      simpa using this.symm
    have hrest : files.drop (k + 1) = rest := by
      rw [← List.tail_drop, hdrop]
      rfl
    simp only [List.enumFrom_cons, List.map_cons, uploadLoop, uploadStep, hget]
    cases hup : upload k x with
    | fulfilled value =>
      have hvalue := hvalues k x value hget hup
      have := ih (k + 1)
        { acc with successful := acc.successful ++ [successEntry x value] } hrest
      simp only [List.filterMap_cons, successAt, failureAt, hup,
        getProp_eq_fieldOf value "secure_url" hvalue,
        getProp_eq_fieldOf value "public_id" hvalue]
      simp only [successEntry] at this
      simpa [bind, Except.bind, pure, Except.pure, List.append_assoc] using this
    | rejected message =>
      have := ih (k + 1)
        { acc with failed := acc.failed ++ [failureEntry x message] } hrest
      simp only [List.filterMap_cons, successAt, failureAt, hup]
      simp only [failureEntry] at this
      simpa [bind, Except.bind, pure, Except.pure, List.append_assoc] using this

/-- The result of `uploadImages`, for every list of files and every way the
uploads settle in which no upload fulfils with `null` or `undefined`. -/
theorem uploadImages_eq (upload : Nat → File → Settled) (files : List File)
    (hvalues : ∀ (i : Nat) (file : File) (value : JsVal), files[i]? = some file →
      upload i file = Settled.fulfilled value → value.isNullish = false) :
    uploadImages upload files =
      Except.ok { successful := successfulSpec upload files, failed := failedSpec upload files } := by
  have := uploadLoop_eq upload files hvalues files 0 { successful := [], failed := [] } rfl
  simp only [uploadImages, List.enum_eq_enumFrom, this, successfulSpec, failedSpec,
    List.nil_append]

theorem partition_length (upload : Nat → File → Settled) (l : List (Nat × File)) :
    (l.filterMap (successAt upload)).length + (l.filterMap (failureAt upload)).length =
      l.length := by
  induction l with
  | nil => rfl
  | cons ix rest ih =>
    cases hup : upload ix.1 ix.2 <;>
      simp [List.filterMap_cons, successAt, failureAt, hup] <;> omega

theorem partition_names_perm (upload : Nat → File → Settled) (l : List (Nat × File)) :
    ((l.filterMap (successAt upload) ++ l.filterMap (failureAt upload)).map entryName).Perm
      (l.map (fun ix => ix.2.name)) := by
  induction l with
  | nil => simp
  | cons ix rest ih =>
    cases hup : upload ix.1 ix.2 with
    | fulfilled value =>
      simp only [List.filterMap_cons, successAt, failureAt, hup, List.cons_append, List.map_cons]
      have hname : entryName (successEntry ix.2 value) = ix.2.name := rfl
      rw [hname]
      exact List.Perm.cons _ ih
    | rejected message =>
      simp only [List.filterMap_cons, successAt, failureAt, hup, List.map_append, List.map_cons]
      have hname : entryName (failureEntry ix.2 message) = ix.2.name := rfl
      rw [hname]
      refine List.Perm.trans List.perm_middle (List.Perm.cons _ ?_)
      simpa [List.map_append] using ih

theorem names_sublist (f : Nat × File → Option JsVal) (l : List (Nat × File))
    (hname : ∀ ix e, f ix = some e → entryName e = ix.2.name) :
    ((l.filterMap f).map entryName).Sublist (l.map (fun ix => ix.2.name)) := by
  induction l with
  | nil => simp
  | cons ix rest ih =>
    cases hf : f ix with
    | none =>
      simp only [List.filterMap_cons, hf, List.map_cons]
      exact List.Sublist.cons _ ih
    | some e =>
      simp only [List.filterMap_cons, hf, List.map_cons, hname ix e hf]
      exact List.Sublist.cons₂ _ ih

theorem successAt_name (upload : Nat → File → Settled) (ix : Nat × File) (e : JsVal)
    (h : successAt upload ix = some e) : entryName e = ix.2.name := by
  unfold successAt at h
  cases hup : upload ix.1 ix.2 with
  | fulfilled value =>
    simp only [hup, Option.some.injEq] at h
    rw [← h]
    rfl
  | rejected message => simp [hup] at h

theorem failureAt_name (upload : Nat → File → Settled) (ix : Nat × File) (e : JsVal)
    (h : failureAt upload ix = some e) : entryName e = ix.2.name := by
  unfold failureAt at h
  cases hup : upload ix.1 ix.2 with
  | fulfilled value => simp [hup] at h
  | rejected message =>
    simp only [hup, Option.some.injEq] at h
    rw [← h]
    rfl

theorem enum_names (files : List File) :
    files.enum.map (fun ix => ix.2.name) = files.map File.name := by
  have : files.map File.name = (files.enum.map Prod.snd).map File.name := by
    rw [List.enum_map_snd]
  rw [this, List.map_map]
  rfl

/-- A batch of three files of which the second upload fails: two entries in
`successful`, one in `failed`, each list in input order. -/
theorem uploadImages_example :
    uploadImages secondUploadFails threeFiles =
      Except.ok
        { successful := [
            JsVal.obj [("file", JsVal.str "a.jpg"), ("url", JsVal.str "https://cdn/x/a.jpg"),
              ("cloudinaryId", JsVal.str "farm-crops/a.jpg")],
            JsVal.obj [("file", JsVal.str "c.png"), ("url", JsVal.str "https://cdn/x/c.png"),
              ("cloudinaryId", JsVal.str "farm-crops/c.png")]]
          failed := [
            JsVal.obj [("file", JsVal.str "b.jpg"),
              ("error", JsVal.str "Upload failed: Bad Request")]] } := by
  rfl

/-- The uploads of the three files, of which the second fails, fulfil with
objects. -/
theorem secondUploadFails_values (i : Nat) (file : File) (value : JsVal)
    (h : secondUploadFails i file = Settled.fulfilled value) : value.isNullish = false := by
  unfold secondUploadFails at h
  by_cases hi : i = 1
  · simp [hi] at h
  · simp only [hi, if_false, Settled.fulfilled.injEq] at h
    rw [← h]
    rfl

/-- C3, counterexample. A batch of two files whose uploads both fulfil, the
second with the body `null`: reading `secure_url` of `null` throws inside the
loop, the handler of lines 34-36 catches it, and `uploadImages` rejects as a
whole; there is no `successful` and no `failed`, and the entry of the first
file is lost with the rest. -/
theorem uploadImages_null_body_counterexample :
    secondBodyNull 0 { name := "a.jpg", type := "image/jpeg", size := 2097152 } =
      Settled.fulfilled (uploadedBody { name := "a.jpg", type := "image/jpeg", size := 2097152 }) ∧
    secondBodyNull 1 { name := "b.jpg", type := "image/jpeg", size := 1024 } =
      Settled.fulfilled JsVal.null ∧
    uploadImages secondBodyNull
        [{ name := "a.jpg", type := "image/jpeg", size := 2097152 },
          { name := "b.jpg", type := "image/jpeg", size := 1024 }] =
      Except.error (JsVal.str typeErrorMessage) :=
  ⟨by rfl, by rfl, by rfl⟩

/-- C3, amended. For every list of files and every way each upload settles
in which no upload fulfils with `null` or `undefined`, `uploadImages` does not
reject: it returns `successful` and `failed` whose lengths add up to the
number of files, and every input file has exactly one entry across the two
lists, so that the file names of the entries are the names of the input
files, each as often as it occurs among them; an upload that rejects costs
no other file its entry. -/
theorem uploadImages_partition (upload : Nat → File → Settled) (files : List File)
    (hvalues : ∀ (i : Nat) (file : File) (value : JsVal), files[i]? = some file →
      upload i file = Settled.fulfilled value → value.isNullish = false) :
    ∃ res : UploadResult,
      uploadImages upload files = Except.ok res ∧
      res.successful.length + res.failed.length = files.length ∧
      ((res.successful ++ res.failed).map entryName).Perm (files.map File.name) ∧
      ∀ name : String,
        ((res.successful ++ res.failed).map entryName).count name =
          (files.map File.name).count name := by
  have hperm : ((successfulSpec upload files ++ failedSpec upload files).map entryName).Perm
      (files.map File.name) := by
    rw [← enum_names files]
    exact partition_names_perm upload files.enum
  refine ⟨_, uploadImages_eq upload files hvalues, ?_, hperm, fun name => hperm.count_eq name⟩
  have := partition_length upload files.enum
  simpa [successfulSpec, failedSpec, List.enum_length] using this

/-- C3, witness. The batch of three files of which the second upload
fails. -/
theorem uploadImages_partition_witness :
    (∀ (i : Nat) (file : File) (value : JsVal), threeFiles[i]? = some file →
      secondUploadFails i file = Settled.fulfilled value → value.isNullish = false) ∧
    ∃ res : UploadResult,
      uploadImages secondUploadFails threeFiles = Except.ok res ∧
      res.successful.length + res.failed.length = threeFiles.length ∧
      ((res.successful ++ res.failed).map entryName).Perm (threeFiles.map File.name) ∧
      ∀ name : String,
        ((res.successful ++ res.failed).map entryName).count name =
          (threeFiles.map File.name).count name :=
  ⟨fun i file value _ h => secondUploadFails_values i file value h,
    uploadImages_partition secondUploadFails threeFiles
      (fun i file value _ h => secondUploadFails_values i file value h)⟩

/-- C4, counterexample. A batch of three files: the first upload rejects, the
second fulfils with the body `null`, the third succeeds.  `uploadImages`
rejects as a whole, so that `successful` is not the list of the files whose
upload fulfilled, nor `failed` the list of those whose upload rejected: the
entry that the specification gives the third file, and the one it gives the
first, are returned in no list. -/
theorem uploadImages_order_counterexample :
    uploadImages failureThenNullBody threeFiles = Except.error (JsVal.str typeErrorMessage) ∧
    failedSpec failureThenNullBody threeFiles =
      [JsVal.obj [("file", JsVal.str "a.jpg"),
        ("error", JsVal.str "Upload failed: Bad Request")]] ∧
    (successfulSpec failureThenNullBody threeFiles).length = 2 :=
  ⟨by rfl, by rfl, by rfl⟩

/-- C4, amended. For every list of files and every way each upload settles
in which no upload fulfils with `null` or `undefined`, the list `successful`
that `uploadImages` returns is the list of the files whose upload fulfilled,
in input order, each with its name and the returned url and id, and `failed`
is the list of the files whose upload rejected, in input order, each with its
name and an error text; the names in either list are a subsequence of the
input names. -/
theorem uploadImages_input_order (upload : Nat → File → Settled) (files : List File)
    (hvalues : ∀ (i : Nat) (file : File) (value : JsVal), files[i]? = some file →
      upload i file = Settled.fulfilled value → value.isNullish = false) :
    ∃ res : UploadResult,
      uploadImages upload files = Except.ok res ∧
      res.successful = successfulSpec upload files ∧
      res.failed = failedSpec upload files ∧
      (res.successful.map entryName).Sublist (files.map File.name) ∧
      (res.failed.map entryName).Sublist (files.map File.name) := by
  refine ⟨_, uploadImages_eq upload files hvalues, rfl, rfl, ?_, ?_⟩
  · have := names_sublist (successAt upload) files.enum (successAt_name upload)
    rwa [enum_names] at this
  · have := names_sublist (failureAt upload) files.enum (failureAt_name upload)
    rwa [enum_names] at this

/-- C4, witness. The batch of three files of which the second upload fails:
the first and the third file are in `successful`, in this order, and the
second is in `failed`. -/
theorem uploadImages_input_order_witness :
    (∀ (i : Nat) (file : File) (value : JsVal), threeFiles[i]? = some file →
      secondUploadFails i file = Settled.fulfilled value → value.isNullish = false) ∧
    (successfulSpec secondUploadFails threeFiles).map entryName = ["a.jpg", "c.png"] ∧
    (failedSpec secondUploadFails threeFiles).map entryName = ["b.jpg"] ∧
    ∃ res : UploadResult,
      uploadImages secondUploadFails threeFiles = Except.ok res ∧
      res.successful = successfulSpec secondUploadFails threeFiles ∧
      res.failed = failedSpec secondUploadFails threeFiles ∧
      (res.successful.map entryName).Sublist (threeFiles.map File.name) ∧
      (res.failed.map entryName).Sublist (threeFiles.map File.name) :=
  ⟨fun i file value _ h => secondUploadFails_values i file value h, by rfl, by rfl,
    uploadImages_input_order secondUploadFails threeFiles
      (fun i file value _ h => secondUploadFails_values i file value h)⟩

/-! ### Extraction and the upload handler -/

/-- C5, at the failing input. A batch of two uploaded files: the extraction of
`a.jpg` fails and that of `b.jpg` succeeds.  The action of `a.jpg` is rejected
and its status is `failed`; yet the test of line 71 passes for it, because the
rejected action carries the payload given to `rejectWithValue`, and
`handleUpload` dispatches `savePlant` for `a.jpg` as well as for `b.jpg`.
When both saves succeed (here the one of `a.jpg` settles first) the Store
gains two entries, one of them for `a.jpg`. -/
theorem handleUpload_saves_failed_extraction :
    processImage jobA.1 jobA.2.1 jobA.2.2 = ThunkAction.rejected rejectedA ∧
    statusAfter (processImageSettled exampleEnv
        (processImagePending exampleEnv PlantsState.initial (JsVal.str "a.jpg"))
        (processImage jobA.1 jobA.2.1 jobA.2.2)) "a.jpg" =
      Except.ok (JsVal.obj [("status", JsVal.str "failed"),
        ("error", JsVal.str "Failed to extract location data")]) ∧
    saveRequests [jobA, jobB] = [rejectedA, plantB] ∧
    plantsAfter (saveTwice exampleEnv "t1" "t2" emptyStorage PlantsState.initial rejectedA plantB
        (Http.resolved responseAck) (Http.resolved responseAck)) =
      Except.ok (JsVal.arr [
        JsVal.obj [("imageName", JsVal.str "a.jpg"),
          ("error", JsVal.str "Failed to extract location data"),
          ("timestamp", JsVal.str "t1"), ("status", JsVal.str "ok")],
        JsVal.obj [("imageName", JsVal.str "b.jpg"), ("imageUrl", JsVal.str "https://cdn/x/b.jpg"),
          ("latitude", JsVal.num 5), ("longitude", JsVal.num 6),
          ("timestamp", JsVal.str "t2"), ("status", JsVal.str "ok")]]) :=
  ⟨by rfl, by rfl, by rfl, by rfl⟩

/-- C6, counterexample. The extraction service answers with `success` true and
data that has a longitude and no latitude: `processImage` is fulfilled, with
latitude `undefined`, and the status of the file becomes `success`. -/
theorem processImage_missing_latitude_counterexample :
    processImage "a.jpg" (JsVal.str "https://cdn/x/a.jpg") (Http.resolved bodyWithoutLatitude) =
      ThunkAction.fulfilled (JsVal.obj [("imageName", JsVal.str "a.jpg"),
        ("imageUrl", JsVal.str "https://cdn/x/a.jpg"), ("latitude", JsVal.undefined),
        ("longitude", JsVal.num 77)]) ∧
    statusAfter (processImageSettled exampleEnv
        (processImagePending exampleEnv PlantsState.initial (JsVal.str "a.jpg"))
        (processImage "a.jpg" (JsVal.str "https://cdn/x/a.jpg")
          (Http.resolved bodyWithoutLatitude))) "a.jpg" =
      Except.ok (JsVal.obj [("status", JsVal.str "success"),
        ("data", JsVal.obj [("imageName", JsVal.str "a.jpg"),
          ("imageUrl", JsVal.str "https://cdn/x/a.jpg"), ("latitude", JsVal.undefined),
          ("longitude", JsVal.num 77)])]) :=
  ⟨by rfl, by rfl⟩

theorem typeErrorMessage_ne_empty : typeErrorMessage ≠ "" := by
  decide

/-- With no data to read the coordinates from, the attempt of `processImage`
ends in an error whose message is not empty. -/
theorem extraction_fails_of_no_data (imageName : String) (imageUrl body : JsVal)
    (hdata : ∀ d, body.getProp "data" = Except.ok d → d.isNullish = true) :
    ∃ message : String, message ≠ "" ∧
      (do
        let response ← extractLocationFromImage (Http.resolved body)
        let data ← response.getProp "data"
        let latitude ← data.getProp "latitude"
        let data2 ← response.getProp "data"
        let longitude ← data2.getProp "longitude"
        pure (JsVal.obj [("imageName", JsVal.str imageName), ("imageUrl", imageUrl),
          ("latitude", latitude), ("longitude", longitude)]) : Except String JsVal) =
      Except.error message := by
  cases hsucc : body.getProp "success" with
  | error e =>
    refine ⟨typeErrorMessage, typeErrorMessage_ne_empty, ?_⟩
    cases body <;> simp [JsVal.getProp] at hsucc
    all_goals rfl
  | ok success =>
    by_cases htruthy : success.truthy = true
    · cases hd : body.getProp "data" with
      | error e =>
        cases body <;> simp [JsVal.getProp] at hsucc hd
      | ok d =>
        have hnull := hdata d hd
        have hlat : d.getProp "latitude" = Except.error typeErrorMessage := by
          cases d <;> simp [JsVal.isNullish] at hnull <;> rfl
        refine ⟨typeErrorMessage, typeErrorMessage_ne_empty, ?_⟩
        simp only [extractLocationFromImage, hsucc, htruthy, bind, Except.bind, pure,
          Except.pure, Bool.not_true, Bool.false_eq_true, if_false, hd, hlat]
    · refine ⟨"Failed to extract location data", by decide, ?_⟩
      have hfalse : success.truthy = false := by simpa using htruthy
      simp only [extractLocationFromImage, hsucc, hfalse, bind, Except.bind, Bool.not_false,
        if_true]

/-- C6, amended. For every extraction response in which the data is absent
(`response.data` is `null` or `undefined`, or there is no body to read it
from), `processImage` resolves to the rejected outcome, which carries the
name of the file and a reason that is not empty, and the reducer sets the
status of the file to `failed` with that reason. -/
theorem processImage_missing_data (env : Env) (state : PlantsState) (imageName : String)
    (imageUrl body : JsVal)
    (hdata : ∀ d, body.getProp "data" = Except.ok d → d.isNullish = true) :
    ∃ reason : String, reason ≠ "" ∧
      processImage imageName imageUrl (Http.resolved body) =
        ThunkAction.rejected (JsVal.obj [("imageName", JsVal.str imageName),
          ("error", JsVal.str reason)]) ∧
      processImageSettled env state (processImage imageName imageUrl (Http.resolved body)) =
        Except.ok { state with
          processing := Props.set state.processing imageName
            (JsVal.obj [("status", JsVal.str "failed"), ("error", JsVal.str reason)]) } := by
  obtain ⟨message, hne, hattempt⟩ := extraction_fails_of_no_data imageName imageUrl body hdata
  have hthunk : processImage imageName imageUrl (Http.resolved body) =
      ThunkAction.rejected (JsVal.obj [("imageName", JsVal.str imageName),
        ("error", JsVal.str message)]) := by
    simp only [processImage, hattempt, hne, if_false]
  refine ⟨message, hne, hthunk, ?_⟩
  rw [hthunk]
  simp [processImageSettled, processImageRejected, JsVal.getProp, Props.get,
    env.toPropertyKey_str, bind, Except.bind, pure, Except.pure]

/-- C6, witness. A response with `success` true
and no data. -/
theorem processImage_missing_data_witness :
    (∀ d, bodyWithoutData.getProp "data" = Except.ok d → d.isNullish = true) ∧
    ∃ reason : String, reason ≠ "" ∧
      processImage "a.jpg" (JsVal.str "https://cdn/x/a.jpg") (Http.resolved bodyWithoutData) =
        ThunkAction.rejected (JsVal.obj [("imageName", JsVal.str "a.jpg"),
          ("error", JsVal.str reason)]) ∧
      processImageSettled exampleEnv PlantsState.initial
          (processImage "a.jpg" (JsVal.str "https://cdn/x/a.jpg")
            (Http.resolved bodyWithoutData)) =
        Except.ok { PlantsState.initial with
          processing := Props.set PlantsState.initial.processing "a.jpg"
            (JsVal.obj [("status", JsVal.str "failed"), ("error", JsVal.str reason)]) } :=
  ⟨by
      intro d hd
      simp [bodyWithoutData, JsVal.getProp, Props.get] at hd
      rw [← hd]
      rfl,
    processImage_missing_data exampleEnv PlantsState.initial "a.jpg"
      (JsVal.str "https://cdn/x/a.jpg") bodyWithoutData (by
        intro d hd
        simp [bodyWithoutData, JsVal.getProp, Props.get] at hd
        rw [← hd]
        rfl)⟩

/-! ### Fetch with fallback -/

/-- C7. Fetch fallback: for every prior state and failure reason, when
`fetchPlants` is rejected and the cache holds a snapshot under `farmPlants` (a
text, not empty, that `JSON.parse` reads as `snapshot`), the reducer succeeds,
the collection becomes exactly `snapshot`, `loading` becomes false and `error`
is the failure reason; nothing else changes, the cache included. -/
theorem fetchPlantsRejected_fallback (env : Env) (store : Storage) (state : PlantsState)
    (reason snapshot : JsVal) (cached : String) (hcache : store.farmPlants = some cached)
    (hne : cached ≠ "") (hparse : env.jsonParse cached = Except.ok snapshot) :
    fetchPlantsRejected env store state reason =
      Except.ok ({ state with loading := false, error := reason, plants := snapshot }, store) := by
  simp [fetchPlantsRejected, hcache, hne, hparse, bind, Except.bind, pure, Except.pure]

/-- C7, witness. The request fails with a
network error and the cache holds three records, which become the
collection, in order. -/
theorem fetchPlantsRejected_fallback_witness :
    snapshotStorage.farmPlants = some snapshotText ∧ snapshotText ≠ "" ∧
    exampleEnv.jsonParse snapshotText = Except.ok snapshotRecords ∧
    fetchPlantsRejected exampleEnv snapshotStorage (fetchPlantsPending PlantsState.initial)
        (JsVal.str "Network Error") =
      Except.ok ({ fetchPlantsPending PlantsState.initial with
          loading := false
          error := JsVal.str "Network Error"
          plants := snapshotRecords },
        snapshotStorage) :=
  ⟨rfl, by decide, by rfl,
    fetchPlantsRejected_fallback exampleEnv snapshotStorage (fetchPlantsPending PlantsState.initial)
      (JsVal.str "Network Error") snapshotRecords snapshotText rfl (by decide) (by rfl)⟩

/-- C8, counterexample. The collection holds two records, the cache has no
entry, and `fetchPlants` is rejected: the collection still holds the two
records afterwards; it is not empty. -/
theorem fetchPlantsRejected_no_cache_counterexample :
    plantsAfter (fetchPlantsRejected exampleEnv emptyStorage (fetchPlantsPending stateBA)
        (JsVal.str "Network Error")) =
      Except.ok (JsVal.arr [plantB, plantA]) :=
  by rfl

/-- C8, amended. For every prior state, when `fetchPlants` is rejected and
the cache holds no snapshot under `farmPlants` (no entry, or an empty text),
the reducer succeeds and leaves the collection as it was, so that a
collection that was empty is empty afterwards; `loading` is false and
`error` is the failure reason. -/
theorem fetchPlantsRejected_no_cache (env : Env) (store : Storage) (state : PlantsState)
    (reason : JsVal) (hcache : store.farmPlants = none ∨ store.farmPlants = some "") :
    fetchPlantsRejected env store state reason =
        Except.ok ({ state with loading := false, error := reason }, store) ∧
      plantsAfter (fetchPlantsRejected env store state reason) = Except.ok state.plants := by
  rcases hcache with h | h <;>
    simp [fetchPlantsRejected, plantsAfter, h, pure, Except.pure, Except.map]

/-- C8, witness. The first fetch of a session,
with nothing in the cache, fails; the collection stays empty. -/
theorem fetchPlantsRejected_no_cache_witness :
    (emptyStorage.farmPlants = none ∨ emptyStorage.farmPlants = some "") ∧
    fetchPlantsRejected exampleEnv emptyStorage (fetchPlantsPending PlantsState.initial)
        (JsVal.str "Network Error") =
      Except.ok ({ fetchPlantsPending PlantsState.initial with
          loading := false
          error := JsVal.str "Network Error" }, emptyStorage) ∧
    plantsAfter (fetchPlantsRejected exampleEnv emptyStorage
        (fetchPlantsPending PlantsState.initial) (JsVal.str "Network Error")) =
      Except.ok (JsVal.arr []) :=
  ⟨Or.inl rfl,
    fetchPlantsRejected_no_cache exampleEnv emptyStorage (fetchPlantsPending PlantsState.initial)
      (JsVal.str "Network Error") (Or.inl rfl)⟩

/-- C9, at the failing input. The entry `farmPlants` of the cache is a text
that is not JSON.  The load at start-up catches the `SyntaxError` and leaves
the state as it was; the reducer `fetchPlants.rejected` parses the same text
with no handler and throws. -/
theorem fetchPlantsRejected_corrupt_cache_throws :
    exampleEnv.jsonParse corruptText = Except.error "SyntaxError: unexpected token in JSON" ∧
    loadCachedPlants exampleEnv corruptStorage PlantsState.initial = PlantsState.initial ∧
    fetchPlantsRejected exampleEnv corruptStorage (fetchPlantsPending PlantsState.initial)
        (JsVal.str "Network Error") =
      Except.error "SyntaxError: unexpected token in JSON" :=
  ⟨by rfl, by rfl, by rfl⟩

/-! ### A save that fails -/

/-- C10. For every prior state and failure reason, `savePlant.rejected`
does not throw and leaves the collection and the cache exactly as they were:
only `saving` becomes false and `error` becomes the reason.  A `savePlant`
whose request fails with `message` ends in that reducer with the reason
`message`, so the record is not added. -/
theorem savePlantRejected_frame (env : Env) (now : String) (store : Storage)
    (state : PlantsState) (reason plantData : JsVal) (message : String) :
    savePlantRejected store state reason =
        Except.ok ({ state with saving := false, error := reason }, store) ∧
      plantsAfter (savePlantRejected store state reason) = Except.ok state.plants ∧
      savePlant now plantData (Http.failed message) = ThunkAction.rejected (JsVal.str message) ∧
      dispatchSavePlant env now store state plantData (Http.failed message) =
        Except.ok ({ state with saving := false, error := JsVal.str message }, store) :=
  ⟨rfl, rfl, rfl, rfl⟩

/-! ### The mirror in the cache -/

theorem sameImageName_ok (r p : JsVal) (b : Bool) (h : sameImageName r p = Except.ok b) :
    b = nameEq p r := by
  unfold sameImageName at h
  unfold nameEq
  cases hp : p.getProp "imageName" with
  | error e => simp [hp, bind, Except.bind] at h
  | ok a =>
    cases hr : r.getProp "imageName" with
    | error e => simp [hp, hr, bind, Except.bind] at h
    | ok c =>
      simp only [hp, hr, bind, Except.bind, pure, Except.pure, Except.ok.injEq] at h
      exact h.symm

theorem findIndexFrom_ok (r : JsVal) :
    ∀ (xs : List JsVal) (start : Nat) (found : Option Nat),
      findIndexFrom r xs start = Except.ok found →
      found.elim (xs ++ [r]) (fun j => xs.set (j - start) r) = upsertList r xs ∧
        ∀ j, found = some j → start ≤ j := by
  intro xs
  induction xs with
  | nil =>
    intro start found h
    simp only [findIndexFrom, pure, Except.pure, Except.ok.injEq] at h
    subst h
    exact ⟨rfl, by simp⟩
  | cons x rest ih =>
    intro start found h
    simp only [findIndexFrom] at h
    cases hx : sameImageName r x with
    | error e => simp [hx, bind, Except.bind] at h
    | ok b =>
      have hb := sameImageName_ok r x b hx
      simp only [hx, bind, Except.bind] at h
      cases b with
      | true =>
        simp only [if_true, pure, Except.pure, Except.ok.injEq] at h
        subst h
        refine ⟨?_, by simp⟩
        simp [upsertList, ← hb]
      | false =>
        simp only [Bool.false_eq_true, if_false] at h
        obtain ⟨hrest, hle⟩ := ih (start + 1) found h
        cases found with
        | none =>
          refine ⟨?_, by simp⟩
          simp only [Option.elim] at hrest ⊢
          simp [upsertList, ← hb, hrest]
        | some j =>
          have hj := hle j rfl
          refine ⟨?_, fun k hk => by
            injection hk with hk
            omega⟩
          simp only [Option.elim] at hrest ⊢
          have hsub : j - start = (j - (start + 1)) + 1 := by omega
          rw [hsub]
          simp [upsertList, ← hb, hrest]

/-- What `savePlant.fulfilled` returns whenever it does not throw: the
collection was an array, the new collection is its upsert, and the cache
holds the text of the new collection. -/
theorem savePlantFulfilled_ok_inv (env : Env) (store : Storage) (state st : PlantsState)
    (w : Storage) (r : JsVal) (h : savePlantFulfilled env store state r = Except.ok (st, w)) :
    ∃ xs : List JsVal, state.plants = JsVal.arr xs ∧
      st = { state with saving := false, plants := JsVal.arr (upsertList r xs) } ∧
      w = { store with farmPlants := some (env.jsonStringify (JsVal.arr (upsertList r xs))) } := by
  cases hp : state.plants with
  | arr xs =>
    cases hf : findIndexFrom r xs 0 with
    | error e =>
      simp [savePlantFulfilled, findIndex, hp, hf, bind, Except.bind] at h
    | ok found =>
      rw [savePlantFulfilled_eq env store state xs r found hp hf] at h
      have hup := (findIndexFrom_ok r xs 0 found hf).1
      simp only [Nat.sub_zero] at hup
      rw [hup] at h
      injection h with h
      injection h with h1 h2
      exact ⟨xs, rfl, h1.symm, h2.symm⟩
  | undefined => simp [savePlantFulfilled, findIndex, hp, bind, Except.bind] at h
  | null => simp [savePlantFulfilled, findIndex, hp, bind, Except.bind] at h
  | bool b => simp [savePlantFulfilled, findIndex, hp, bind, Except.bind] at h
  | num q => simp [savePlantFulfilled, findIndex, hp, bind, Except.bind] at h
  | str t => simp [savePlantFulfilled, findIndex, hp, bind, Except.bind] at h
  | obj ps => simp [savePlantFulfilled, findIndex, hp, bind, Except.bind] at h

/-- C11. For every prior state whose collection is a list of records and
every saved record, `savePlant.fulfilled` succeeds and the value stored
afterwards under `farmPlants` is the JSON text of the full updated
collection, the one after the upsert, which is also the collection of the new
state; the other key of the cache is untouched. -/
theorem savePlantFulfilled_mirrors (env : Env) (store : Storage) (state : PlantsState)
    (xs : List JsVal) (r : JsVal) (hplants : state.plants = JsVal.arr xs)
    (hxs : ∀ p ∈ xs, p.isNullish = false) (hr : r.isNullish = false) :
    ∃ (st : PlantsState) (w : Storage),
      savePlantFulfilled env store state r = Except.ok (st, w) ∧
      st.plants = JsVal.arr (upsertList r xs) ∧
      w.farmPlants = some (env.jsonStringify st.plants) ∧
      w.farmPlants = some (env.jsonStringify (JsVal.arr (upsertList r xs))) ∧
      w.theme = store.theme :=
  ⟨_, _, savePlantFulfilled_eq_upsertList env store state xs r hplants hxs hr, rfl, rfl, rfl, rfl⟩

/-- C11, witness. Saving the later record for `a.jpg` into the collection
`[b.jpg, a.jpg]`: the cache holds the text of `[b.jpg, a.jpg (later)]`. -/
theorem savePlantFulfilled_mirrors_witness :
    (∀ p ∈ [plantB, plantA], p.isNullish = false) ∧
    upsertList plantA2 [plantB, plantA] = [plantB, plantA2] ∧
    ∃ (st : PlantsState) (w : Storage),
      savePlantFulfilled exampleEnv emptyStorage stateBA plantA2 = Except.ok (st, w) ∧
      st.plants = JsVal.arr (upsertList plantA2 [plantB, plantA]) ∧
      w.farmPlants = some (exampleEnv.jsonStringify st.plants) ∧
      w.farmPlants =
        some (exampleEnv.jsonStringify (JsVal.arr (upsertList plantA2 [plantB, plantA]))) ∧
      w.theme = emptyStorage.theme :=
  ⟨by simp [plantA, plantB, JsVal.isNullish], by rfl,
    savePlantFulfilled_mirrors exampleEnv emptyStorage stateBA [plantB, plantA] plantA2 rfl
      (by simp [plantA, plantB, JsVal.isNullish]) rfl⟩

/-- C12. For every prior state and every fetched list `L`, after
`fetchPlants.fulfilled` the collection is `L` exactly, `lastFetched` is the
time of the fetch, `loading` is false, the value stored under `farmPlants` is
the JSON text of `L`, and nothing else has changed; the thunk hands the
`data` of the response, when it is a list, to the reducer as it is. -/
theorem fetchPlantsFulfilled_replaces (env : Env) (now : String) (store : Storage)
    (state : PlantsState) (L : JsVal) (items : List JsVal) :
    fetchPlantsFulfilled env now store state L =
        Except.ok ({ state with loading := false, plants := L, lastFetched := JsVal.str now },
          { store with farmPlants := some (env.jsonStringify L) }) ∧
      plantsAfter (fetchPlantsFulfilled env now store state L) = Except.ok L ∧
      fetchPlants (Http.resolved (JsVal.obj [("data", JsVal.arr items)])) =
        ThunkAction.fulfilled (JsVal.arr items) :=
  ⟨rfl, rfl, by
    simp [fetchPlants, fetchPlantData, JsVal.getProp, Props.get, JsVal.truthy, bind, Except.bind,
      pure, Except.pure]⟩

/-! ### Uniqueness of the names -/

/-- C14, counterexample. The persistence service answers a fetch with two
records named `a.jpg`; `fetchPlants.fulfilled` installs the list as it is, and
the state reached holds two entries with the same `imageName`. -/
theorem unique_names_counterexample :
    ∃ s : PlantsState × Storage,
      Reachable exampleEnv emptyStorage s ∧ s.1.plants = JsVal.arr [plantA, plantA2] ∧
        nameEq plantA plantA2 = true ∧ ¬ UniqueNames s.1.plants := by
  refine ⟨_, Reachable.step _ _ (StoreOp.fetchPlantsFulfilled "t" (JsVal.arr [plantA, plantA2]))
    Reachable.init rfl, rfl, by rfl, ?_⟩
  intro h
  have h2 : nameEq plantA plantA2 = false := by
    simpa [UniqueNames] using h
  exact absurd h2 (by decide)

/-- One store operation that installs no list with repeated names keeps the
names of the collection distinct. -/
theorem applyOp_uniqueNames (env : Env) (s s2 : PlantsState × Storage) (op : StoreOp)
    (huniq : UniqueNames s.1.plants) (hinst : installsUniqueNames env s op)
    (hstep : applyOp env s op = Except.ok s2) : UniqueNames s2.1.plants := by
  cases op with
  | savePlantFulfilled payload =>
    obtain ⟨st, w⟩ := s2
    obtain ⟨xs, hxs, hst, _⟩ := savePlantFulfilled_ok_inv env s.2 s.1 st w payload hstep
    rw [hxs] at huniq
    simp only [hst, UniqueNames] at huniq ⊢
    exact upsertList_pairwise payload xs huniq
  | savePlantRejected reason =>
    simp only [applyOp, savePlantRejected, pure, Except.pure, Except.ok.injEq] at hstep
    rw [← hstep]
    exact huniq
  | fetchPlantsFulfilled now payload =>
    simp only [applyOp, fetchPlantsFulfilled, pure, Except.pure, Except.ok.injEq] at hstep
    rw [← hstep]
    exact hinst
  | fetchPlantsRejected reason =>
    simp only [applyOp, fetchPlantsRejected] at hstep
    cases hc : s.2.farmPlants with
    | none =>
      simp only [hc, pure, Except.pure, Except.ok.injEq] at hstep
      rw [← hstep]
      exact huniq
    | some cached =>
      by_cases hne : cached = ""
      · simp only [hc, hne, ne_eq, not_true_eq_false, if_false, pure, Except.pure,
          Except.ok.injEq] at hstep
        rw [← hstep]
        exact huniq
      · cases hparse : env.jsonParse cached with
        | error e => simp [hc, hne, hparse, bind, Except.bind] at hstep
        | ok parsed =>
          simp only [hc, hne, ne_eq, not_false_eq_true, if_true, hparse, bind, Except.bind,
            pure, Except.pure, Except.ok.injEq] at hstep
          rw [← hstep]
          exact hinst cached parsed hc hparse
  | loadFromCache payload =>
    simp only [applyOp, loadFromCache, Except.ok.injEq] at hstep
    rw [← hstep]
    exact hinst
  | selectPlant payload =>
    simp only [applyOp, selectPlant, Except.ok.injEq] at hstep
    rw [← hstep]
    exact huniq
  | clearSelectedPlant =>
    simp only [applyOp, clearSelectedPlant, Except.ok.injEq] at hstep
    rw [← hstep]
    exact huniq
  | clearError =>
    simp only [applyOp, clearError, Except.ok.injEq] at hstep
    rw [← hstep]
    exact huniq

/-- C14, amended. Key uniqueness is an invariant of the Plant Collection
Store along every sequence of store operations in which each list installed
wholesale (by `fetchPlants.fulfilled`, by `loadFromCache`, or from the cache
by `fetchPlants.rejected`) has distinct names: in every state so reached no
two entries of `plants` have the same `imageName`. -/
theorem unique_names_invariant (env : Env) (store0 : Storage) (s : PlantsState × Storage)
    (hreach : ReachableUnique env store0 s) : UniqueNames s.1.plants := by
  induction hreach with
  | init => simp [UniqueNames, PlantsState.initial]
  | step s s2 op _ hinst hstep ih => exact applyOp_uniqueNames env s s2 op ih hinst hstep

/-- C14, witness. A fetch installs the records for `b.jpg` and `a.jpg`, and
then the later record for `a.jpg` is saved: it takes the place of the earlier
one, and the names of the two records of the state reached are distinct. -/
theorem unique_names_invariant_witness :
    UniqueNames (JsVal.arr [plantB, plantA]) ∧
    ReachableUnique exampleEnv emptyStorage
        ({ PlantsState.initial with
            plants := JsVal.arr [plantB, plantA2]
            lastFetched := JsVal.str "t" },
          { emptyStorage with farmPlants := some "[]" }) ∧
      UniqueNames (JsVal.arr [plantB, plantA2]) :=
  have hfetched : UniqueNames (JsVal.arr [plantB, plantA]) := by
    simp [UniqueNames, plantA, plantB, nameEq, JsVal.getProp, Props.get, JsVal.strictEq]
  have hfetch : ReachableUnique exampleEnv emptyStorage
      ({ PlantsState.initial with
          plants := JsVal.arr [plantB, plantA]
          lastFetched := JsVal.str "t" },
        { emptyStorage with farmPlants := some "[]" }) :=
    ReachableUnique.step _ _ (StoreOp.fetchPlantsFulfilled "t" (JsVal.arr [plantB, plantA]))
      ReachableUnique.init hfetched (by rfl)
  have hsave : ReachableUnique exampleEnv emptyStorage
      ({ PlantsState.initial with
          plants := JsVal.arr [plantB, plantA2]
          lastFetched := JsVal.str "t" },
        { emptyStorage with farmPlants := some "[]" }) :=
    ReachableUnique.step _ _ (StoreOp.savePlantFulfilled plantA2) hfetch trivial (by rfl)
  ⟨hfetched, hsave, unique_names_invariant exampleEnv emptyStorage _ hsave⟩

/-! ### The status of a file during a batch -/

/-- The two shapes of the final action of `processImage`. -/
theorem processImage_cases (imageName : String) (imageUrl : JsVal) (http : Http) :
    (∃ latitude longitude, processImage imageName imageUrl http =
        ThunkAction.fulfilled (JsVal.obj [("imageName", JsVal.str imageName),
          ("imageUrl", imageUrl), ("latitude", latitude), ("longitude", longitude)])) ∨
      (∃ reason, processImage imageName imageUrl http =
        ThunkAction.rejected (JsVal.obj [("imageName", JsVal.str imageName),
          ("error", JsVal.str reason)])) := by
  unfold processImage
  cases h1 : extractLocationFromImage http with
  | error e =>
    right
    exact ⟨if e = "" then "Failed to extract location" else e, by simp [bind, Except.bind]⟩
  | ok response =>
    cases h2 : response.getProp "data" with
    | error e =>
      right
      exact ⟨if e = "" then "Failed to extract location" else e,
        by simp [h2, bind, Except.bind]⟩
    | ok data =>
      cases h3 : data.getProp "latitude" with
      | error e =>
        right
        exact ⟨if e = "" then "Failed to extract location" else e,
          by simp [h2, h3, bind, Except.bind]⟩
      | ok latitude =>
        cases h4 : data.getProp "longitude" with
        | error e =>
          right
          exact ⟨if e = "" then "Failed to extract location" else e,
            by simp [h2, h3, h4, bind, Except.bind]⟩
        | ok longitude =>
          left
          exact ⟨latitude, longitude, by simp [h2, h3, h4, bind, Except.bind, pure, Except.pure]⟩

/-- Every action of `processImage` writes its status under its own name and
does not throw. -/
theorem applyEvent_eq (env : Env) (state : PlantsState) (event : ProcessEvent) :
    ∃ rest : Props, applyEvent env state event =
      Except.ok { state with
        processing := Props.set state.processing event.imageName
          (JsVal.obj (("status", JsVal.str event.status) :: rest)) } := by
  cases event with
  | pending job =>
    exact ⟨[], by simp [applyEvent, processImagePending, env.toPropertyKey_str,
      ProcessEvent.imageName, ProcessEvent.status, pure, Except.pure]⟩
  | settled job =>
    rcases processImage_cases job.1 job.2.1 job.2.2 with ⟨lat, lon, h⟩ | ⟨reason, h⟩
    · exact ⟨[("data", JsVal.obj [("imageName", JsVal.str job.1), ("imageUrl", job.2.1),
          ("latitude", lat), ("longitude", lon)])], by
        simp only [applyEvent, ProcessEvent.imageName, ProcessEvent.status, h,
          processImageSettled, processImageFulfilled, JsVal.getProp, Props.get, if_true,
          bind, Except.bind, pure, Except.pure, env.toPropertyKey_str]⟩
    · exact ⟨[("error", JsVal.str reason)], by
        simp [applyEvent, ProcessEvent.imageName, ProcessEvent.status, h,
          processImageSettled, processImageRejected, JsVal.getProp, Props.get,
          bind, Except.bind, pure, Except.pure, env.toPropertyKey_str]⟩

/-- The history of a name is the list of the statuses of the actions about
that name, in the order of the actions. -/
theorem statusHistory_eq (env : Env) (imageName : String) (events : List ProcessEvent) :
    ∀ state : PlantsState,
      statusHistory env imageName state events =
        (events.filter (fun e => decide (e.imageName = imageName))).map
          (fun e => JsVal.str e.status) := by
  induction events with
  | nil =>
    intro state
    rfl
  | cons event rest ih =>
    intro state
    obtain ⟨more, happly⟩ := applyEvent_eq env state event
    simp only [statusHistory, happly]
    by_cases hname : event.imageName = imageName
    · subst hname
      simp [ih, statusOf, Props.get_set_self, Props.get]
    · simp [ih, hname]

theorem filter_name_of_nodup (job : String × JsVal × Http) :
    ∀ jobs : List (String × JsVal × Http), (jobs.map Prod.fst).Nodup → job ∈ jobs →
      jobs.filter (fun j => decide (j.1 = job.1)) = [job] := by
  intro jobs
  induction jobs with
  | nil =>
    intro _ hmem
    simp at hmem
  | cons x rest ih =>
    intro hnodup hmem
    have hnotin : x.1 ∉ rest.map Prod.fst := (List.nodup_cons.mp hnodup).1
    have hrest : (rest.map Prod.fst).Nodup := (List.nodup_cons.mp hnodup).2
    rcases List.mem_cons.mp hmem with heq | hin
    · subst heq
      have hnone : rest.filter (fun j => decide (j.1 = job.1)) = [] := by
        rw [List.filter_eq_nil_iff]
        intro j hj hname
        exact hnotin (by
          rw [← of_decide_eq_true hname]
          exact List.mem_map_of_mem Prod.fst hj)
      simp [List.filter_cons, hnone]
    · have hne : x.1 ≠ job.1 := by
        intro hc
        exact hnotin (by
          rw [hc]
          exact List.mem_map_of_mem Prod.fst hin)
      simp [List.filter_cons, hne, ih hrest hin]

/-- C15, counterexample. A batch with two files named `a.jpg` (the selection
is appended to without a check for names already selected), of which the
first extraction fails and the second succeeds: the statuses written for
`a.jpg` are `processing` twice and then two terminal values. -/
theorem status_history_counterexample :
    statusHistory exampleEnv "a.jpg" PlantsState.initial
        (batchEvents [jobA, jobA2] [jobA, jobA2]) =
      [JsVal.str "processing", JsVal.str "processing", JsVal.str "failed",
        JsVal.str "success"] := by
  rfl

/-- C15, amended. For every batch whose file names are distinct, every
order in which the extractions settle and every file of the batch, the
sequence of status values written for that file in the processing map is
`processing` followed by exactly one terminal value, `success` or `failed`. -/
theorem status_history_of_distinct_names (env : Env) (state : PlantsState)
    (jobs completion : List (String × JsVal × Http)) (job : String × JsVal × Http)
    (hperm : completion.Perm jobs) (hnodup : (jobs.map Prod.fst).Nodup) (hjob : job ∈ jobs) :
    ∃ terminal : String, (terminal = "success" ∨ terminal = "failed") ∧
      statusHistory env job.1 state (batchEvents jobs completion) =
        [JsVal.str "processing", JsVal.str terminal] := by
  have hjobs := filter_name_of_nodup job jobs hnodup hjob
  have hcompletion : completion.filter (fun j => decide (j.1 = job.1)) = [job] := by
    have := List.Perm.filter (fun j => decide (j.1 = job.1)) hperm
    rw [hjobs] at this
    exact List.perm_singleton.mp this
  refine ⟨(ProcessEvent.settled job).status, ?_, ?_⟩
  · simp only [ProcessEvent.status]
    cases processImage job.1 job.2.1 job.2.2 <;> simp
  · rw [statusHistory_eq, batchEvents, List.filter_append, List.filter_map, List.filter_map]
    have hp : ((fun e : ProcessEvent => decide (e.imageName = job.1)) ∘ ProcessEvent.pending) =
        (fun j => decide (j.1 = job.1)) := rfl
    have hs : ((fun e : ProcessEvent => decide (e.imageName = job.1)) ∘ ProcessEvent.settled) =
        (fun j => decide (j.1 = job.1)) := rfl
    rw [hp, hs, hjobs, hcompletion]
    rfl

/-- C15, witness. The batch of `a.jpg` and `b.jpg`, whose extractions settle
in the other order. -/
theorem status_history_of_distinct_names_witness :
    [jobB, jobA].Perm [jobA, jobB] ∧ ([jobA, jobB].map Prod.fst).Nodup ∧
    ∃ terminal : String, (terminal = "success" ∨ terminal = "failed") ∧
      statusHistory exampleEnv jobA.1 PlantsState.initial (batchEvents [jobA, jobB] [jobB, jobA]) =
        [JsVal.str "processing", JsVal.str terminal] :=
  ⟨List.Perm.swap _ _ _, by decide,
    status_history_of_distinct_names exampleEnv PlantsState.initial [jobA, jobB] [jobB, jobA] jobA
      (List.Perm.swap _ _ _) (by decide) (by simp)⟩

/-! ### Status updates do not cross keys -/

theorem getProp_ok_of_getProp_ok (v a : JsVal) (k key : String)
    (h : v.getProp k = Except.ok a) : ∃ b, v.getProp key = Except.ok b := by
  cases v <;> simp [JsVal.getProp] at h ⊢

/-- C16. For every processing map and every action of `processImage` about
the file name `n` (its argument or its payload has `imageName` `n`), the
reducer changes nothing but the entry for `n`: pending sets it to the status
`processing`, fulfilled to `success` with the payload, rejected to `failed`
with the reason; the entry of every other file name and every other part of
the state, the collection included, stay as they were. -/
theorem processImage_reducers_frame (env : Env) (state : PlantsState) (n other : String)
    (payload : JsVal) (hname : payload.getProp "imageName" = Except.ok (JsVal.str n))
    (hother : other ≠ n) :
    (processImagePending env state (JsVal.str n) =
        { state with
          processing := Props.set state.processing n
            (JsVal.obj [("status", JsVal.str "processing")]) } ∧
      processImageFulfilled env state payload =
        Except.ok { state with
          processing := Props.set state.processing n
            (JsVal.obj [("status", JsVal.str "success"), ("data", payload)]) } ∧
      ∃ reason, payload.getProp "error" = Except.ok reason ∧
        processImageRejected env state payload =
          Except.ok { state with
            processing := Props.set state.processing n
              (JsVal.obj [("status", JsVal.str "failed"), ("error", reason)]) }) ∧
    (∀ entry : JsVal,
      Props.get (Props.set state.processing n entry) n = entry ∧
      Props.get (Props.set state.processing n entry) other = Props.get state.processing other ∧
      ({ state with processing := Props.set state.processing n entry } : PlantsState).plants =
        state.plants) := by
  obtain ⟨reason, hreason⟩ := getProp_ok_of_getProp_ok payload _ "imageName" "error" hname
  refine ⟨⟨?_, ?_, reason, hreason, ?_⟩, ?_⟩
  · simp [processImagePending, env.toPropertyKey_str]
  · simp [processImageFulfilled, hname, env.toPropertyKey_str, bind, Except.bind, pure,
      Except.pure]
  · simp [processImageRejected, hname, hreason, env.toPropertyKey_str, bind, Except.bind, pure,
      Except.pure]
  · intro entry
    exact ⟨Props.get_set_self _ _ _, Props.get_set_ne _ _ _ _ (Ne.symm hother), rfl⟩

/-- C16, witness. The rejected action for `a.jpg`, and the entry of
`b.jpg`. -/
theorem processImage_reducers_frame_witness :
    rejectedA.getProp "imageName" = Except.ok (JsVal.str "a.jpg") ∧ "b.jpg" ≠ "a.jpg" ∧
    processImageRejected exampleEnv PlantsState.initial rejectedA =
      Except.ok { PlantsState.initial with
        processing := Props.set PlantsState.initial.processing "a.jpg"
          (JsVal.obj [("status", JsVal.str "failed"),
            ("error", JsVal.str "Failed to extract location data")]) } :=
  have h := processImage_reducers_frame exampleEnv PlantsState.initial "a.jpg" "b.jpg" rejectedA
    (by rfl) (by decide)
  ⟨by rfl, by decide, by
    obtain ⟨reason, hreason, hrej⟩ := h.1.2.2
    have : reason = JsVal.str "Failed to extract location data" := by
      have h2 : rejectedA.getProp "error" =
          Except.ok (JsVal.str "Failed to extract location data") := by rfl
      rw [h2] at hreason
      injection hreason with hreason
      exact hreason.symm
    rw [hrej, this]⟩

/-! ### The record that a save returns -/

/-- C17. For every input record and every successful response of the
persistence service, `savePlant` is fulfilled with the merge of the record,
the stamped timestamp and the response: a field present in the response has
the value of the response; a field absent from it keeps the value of the
input record, and `timestamp` the stamped value. -/
theorem savePlant_merges (now : String) (ps : Props) (response : JsVal) (key : String)
    (hrec : (ps.map Prod.fst).Nodup) (hresp : (response.ownProps.map Prod.fst).Nodup) :
    ∃ merged : Props,
      savePlant now (JsVal.obj ps) (Http.resolved response) =
        ThunkAction.fulfilled (JsVal.obj merged) ∧
      (Props.has response.ownProps key = true →
        Props.get merged key = Props.get response.ownProps key) ∧
      (Props.has response.ownProps key = false → key = "timestamp" →
        Props.get merged key = JsVal.str now) ∧
      (Props.has response.ownProps key = false → key ≠ "timestamp" →
        Props.get merged key = Props.get ps key) := by
  refine ⟨_, savePlant_resolved now (JsVal.obj ps) response, ?_, ?_, ?_⟩
  · intro hhas
    rw [Props.get_assign_of_nodup response.ownProps key _ hresp]
    simp [hhas]
  · intro hhas hkey
    rw [Props.get_assign_of_not_has response.ownProps key _ hhas, hkey]
    exact Props.get_set_self _ _ _
  · intro hhas hkey
    exact savePlant_payload_get now ps response key hrec hkey hhas

/-- C17, witness. The record for `a.jpg` and a response that carries
coordinates: the latitude returned is the one of the response. -/
theorem savePlant_merges_witness :
    isRecord plantA ∧ isRecord responseWithCoordinates ∧
    Props.has responseWithCoordinates.ownProps "latitude" = true ∧
    ∃ merged : Props,
      savePlant "t1" plantA (Http.resolved responseWithCoordinates) =
        ThunkAction.fulfilled (JsVal.obj merged) ∧
      Props.get merged "latitude" = JsVal.num 0 :=
  have h := savePlant_merges "t1"
    [("imageName", JsVal.str "a.jpg"), ("imageUrl", JsVal.str "https://cdn/x/a.jpg"),
      ("latitude", JsVal.num 1), ("longitude", JsVal.num 2)]
    responseWithCoordinates "latitude" (by decide) (by decide)
  ⟨by simp [isRecord, plantA], by simp [isRecord, responseWithCoordinates], by rfl,
    h.elim (fun merged hm => ⟨merged, hm.1, by
      rw [hm.2.1 (by rfl)]
      rfl⟩)⟩

/-- C18, counterexample. The input record carries the time of capture as its
timestamp and the response carries none: saved at two readings of the clock,
the record returned has the reading of the clock as its timestamp each time,
and never the time of capture. -/
theorem savePlant_timestamp_counterexample :
    plantWithTimestamp.getProp "timestamp" = Except.ok (JsVal.str "2024-05-01T08:00:00.000Z") ∧
    Props.has responseAck.ownProps "timestamp" = false ∧
    (savePlant "2026-11-04T10:00:00.000Z" plantWithTimestamp
        (Http.resolved responseAck)).payload.getProp "timestamp" =
      Except.ok (JsVal.str "2026-11-04T10:00:00.000Z") ∧
    (savePlant "2026-11-04T10:00:05.000Z" plantWithTimestamp
        (Http.resolved responseAck)).payload.getProp "timestamp" =
      Except.ok (JsVal.str "2026-11-04T10:00:05.000Z") ∧
    JsVal.strictEq (JsVal.str "2026-11-04T10:00:00.000Z")
      (JsVal.str "2024-05-01T08:00:00.000Z") = false :=
  ⟨by rfl, by rfl, by rfl, by rfl, by decide⟩

/-- C18, amended. The timestamp that `savePlant` stamps on a record is the
reading of the clock when the save is answered: for every input record,
whether or not it carries a timestamp, and every response that carries none,
the timestamp of the record returned is that reading. -/
theorem savePlant_stamps_clock (now : String) (plantData response : JsVal)
    (hresp : Props.has response.ownProps "timestamp" = false) :
    (savePlant now plantData (Http.resolved response)).payload.getProp "timestamp" =
      Except.ok (JsVal.str now) := by
  simp only [savePlant_resolved, ThunkAction.payload, JsVal.getProp]
  rw [Props.get_assign_of_not_has response.ownProps "timestamp" _ hresp, Props.get_set_self]

/-- C18, witness. The record with a time of capture, saved with a response
that only acknowledges. -/
theorem savePlant_stamps_clock_witness :
    Props.has responseAck.ownProps "timestamp" = false ∧
    (savePlant "2026-11-04T10:00:00.000Z" plantWithTimestamp
        (Http.resolved responseAck)).payload.getProp "timestamp" =
      Except.ok (JsVal.str "2026-11-04T10:00:00.000Z") :=
  ⟨by rfl, savePlant_stamps_clock "2026-11-04T10:00:00.000Z" plantWithTimestamp responseAck
    (by rfl)⟩

/-! ### A response that reports no success -/

/-- C19. For every response of the extraction service whose `success` is
false or absent, whatever its data and on HTTP 200, `extractLocationFromImage`
fails; `processImage` resolves to the rejected outcome, which carries the
name of the file and a reason; the status of the file becomes `failed`; and
neither the entry of the processing map nor the one record that
`handleUpload` then hands to `savePlant` holds a latitude or a longitude. -/
theorem processImage_success_false (env : Env) (state : PlantsState) (imageName : String)
    (imageUrl body : JsVal)
    (hflag : ∀ s, body.getProp "success" = Except.ok s → s.truthy = false) :
    ∃ reason : String, reason ≠ "" ∧
      extractLocationFromImage (Http.resolved body) = Except.error reason ∧
      processImage imageName imageUrl (Http.resolved body) =
        ThunkAction.rejected (JsVal.obj [("imageName", JsVal.str imageName),
          ("error", JsVal.str reason)]) ∧
      processImageSettled env state (processImage imageName imageUrl (Http.resolved body)) =
        Except.ok { state with
          processing := Props.set state.processing imageName
            (JsVal.obj [("status", JsVal.str "failed"), ("error", JsVal.str reason)]) } ∧
      saveRequests [(imageName, imageUrl, Http.resolved body)] =
        [JsVal.obj [("imageName", JsVal.str imageName), ("error", JsVal.str reason)]] ∧
      (∀ key ∈ ["latitude", "longitude"],
        Props.has [("status", JsVal.str "failed"), ("error", JsVal.str reason)] key = false ∧
        Props.has [("imageName", JsVal.str imageName), ("error", JsVal.str reason)] key =
          false) := by
  have hextract : ∃ reason : String, reason ≠ "" ∧
      extractLocationFromImage (Http.resolved body) = Except.error reason := by
    cases hsucc : body.getProp "success" with
    | error e =>
      refine ⟨typeErrorMessage, typeErrorMessage_ne_empty, ?_⟩
      cases body <;> simp [JsVal.getProp] at hsucc
      all_goals rfl
    | ok success =>
      refine ⟨"Failed to extract location data", by decide, ?_⟩
      simp [extractLocationFromImage, hsucc, hflag success hsucc, bind, Except.bind]
  obtain ⟨reason, hne, hfail⟩ := hextract
  have hthunk : processImage imageName imageUrl (Http.resolved body) =
      ThunkAction.rejected (JsVal.obj [("imageName", JsVal.str imageName),
        ("error", JsVal.str reason)]) := by
    simp [processImage, hfail, hne, bind, Except.bind]
  refine ⟨reason, hne, hfail, hthunk, ?_, ?_, ?_⟩
  · rw [hthunk]
    simp [processImageSettled, processImageRejected, JsVal.getProp, Props.get,
      env.toPropertyKey_str, bind, Except.bind, pure, Except.pure]
  · simp [saveRequests, processAll, saveDecision, hthunk, ThunkAction.payload, JsVal.truthy]
  · intro key hkey
    simp only [List.mem_cons, List.mem_singleton, List.not_mem_nil, or_false] at hkey
    rcases hkey with rfl | rfl <;> exact ⟨by simp [Props.has], by simp [Props.has]⟩

/-- C19, witness. A response on HTTP 200 with `success` false and
coordinates in its data. -/
theorem processImage_success_false_witness :
    (∀ s, bodyUnsuccessful.getProp "success" = Except.ok s → s.truthy = false) ∧
    ∃ reason : String, reason ≠ "" ∧
      extractLocationFromImage (Http.resolved bodyUnsuccessful) = Except.error reason ∧
      processImage "a.jpg" (JsVal.str "https://cdn/x/a.jpg") (Http.resolved bodyUnsuccessful) =
        ThunkAction.rejected (JsVal.obj [("imageName", JsVal.str "a.jpg"),
          ("error", JsVal.str reason)]) :=
  have hflag : ∀ s, bodyUnsuccessful.getProp "success" = Except.ok s → s.truthy = false := by
    intro s hs
    have h2 : bodyUnsuccessful.getProp "success" = Except.ok (JsVal.bool false) := by rfl
    rw [h2] at hs
    injection hs with hs
    rw [← hs]
    rfl
  have h := processImage_success_false exampleEnv PlantsState.initial "a.jpg"
    (JsVal.str "https://cdn/x/a.jpg") bodyUnsuccessful hflag
  ⟨hflag, h.elim (fun reason hr => ⟨reason, hr.1, hr.2.1, hr.2.2.1⟩)⟩

/-! ### Validation of the dropped files -/

theorem isValidImageType_eq (file : File) :
    isValidImageType file =
      (decide (file.type = "image/jpeg") || decide (file.type = "image/jpg") ||
        decide (file.type = "image/png")) := by
  simp [isValidImageType, List.contains_cons, Bool.or_assoc]

theorem validateFile_eq (file : File) : (validateFile file).1 = passesChecks file := by
  unfold validateFile passesChecks
  rw [isValidImageType_eq]
  unfold isValidFileSize
  by_cases h1 : file.type = "image/jpeg" <;> by_cases h2 : file.type = "image/jpg" <;>
    by_cases h3 : file.type = "image/png" <;> by_cases h4 : file.size ≤ 10485760 <;>
    simp [h1, h2, h3, h4]

/-- C20, counterexample. A file whose type is `image/jpg`, which is neither
`image/jpeg` nor `image/png`, passes the check of `onDrop` and is added to the
selection. -/
theorem onDrop_accepts_image_jpg :
    passesSpec jpgFile = false ∧ (validateFile jpgFile).1 = true ∧
    (onDrop [] [jpgFile] []).1 = [jpgFile] :=
  ⟨by decide, by decide, by rfl⟩

/-- C20, amended. Validation on the client: for every file, the check of
`onDrop` accepts it if and only if its type is `image/jpeg`, `image/jpg` or
`image/png` and its size is at most 10 MB (10485760 bytes, included); the
files added to the selection are exactly the dropped files that pass, in
their order, so that a file failing either check is not among them. -/
theorem onDrop_validation (selectedFiles acceptedFiles rejectedFiles : List File) :
    (∀ file : File, (validateFile file).1 = true ↔
      (file.type = "image/jpeg" ∨ file.type = "image/jpg" ∨ file.type = "image/png") ∧
        file.size ≤ 10 * 1024 * 1024) ∧
      (onDrop selectedFiles acceptedFiles rejectedFiles).1 =
        selectedFiles ++ acceptedFiles.filter passesChecks ∧
      (∀ file ∈ acceptedFiles.filter passesChecks, (validateFile file).1 = true) ∧
      (acceptedFiles.filter passesChecks).Sublist acceptedFiles := by
  have hfilter : acceptedFiles.filter (fun file => (validateFile file).1) =
      acceptedFiles.filter passesChecks := by
    congr 1
    funext file
    exact validateFile_eq file
  refine ⟨?_, ?_, ?_, List.filter_sublist _⟩
  · intro file
    rw [validateFile_eq]
    simp [passesChecks, or_assoc]
  · simp only [onDrop, hfilter]
    by_cases hlen : (acceptedFiles.filter passesChecks).length > 0
    · simp [hlen]
    · have hnil : acceptedFiles.filter passesChecks = [] :=
        List.length_eq_zero.mp (by omega)
      simp [hnil]
  · intro file hfile
    rw [validateFile_eq]
    exact (List.mem_filter.mp hfile).2

/-- The file of 15 MB is refused and the file of exactly 10 MB is kept. -/
theorem onDrop_example :
    (validateFile bigFile).1 = false ∧ (validateFile limitFile).1 = true ∧
    (onDrop [] [bigFile, limitFile] []).1 = [limitFile] :=
  ⟨by decide, by decide, by rfl⟩

/-! ### Records on the map -/

/-- A record whose latitude or longitude is not truthy is left out by the
callback of the filter, whatever the filter text. -/
theorem showsOnMap_of_falsy (menv : MapEnv) (filterText : String) (plant latitude longitude : JsVal)
    (hlat : plant.getProp "latitude" = Except.ok latitude)
    (hlon : plant.getProp "longitude" = Except.ok longitude)
    (hfalsy : latitude.truthy = false ∨ longitude.truthy = false) :
    showsOnMap menv filterText plant = Except.ok false := by
  unfold showsOnMap
  rcases hfalsy with h | h
  · simp [hlat, h, bind, Except.bind, pure, Except.pure]
  · cases hl : latitude.truthy <;>
      simp [hlat, hlon, hl, h, bind, Except.bind, pure, Except.pure]

/-- With an empty filter text, a record whose coordinates are both truthy
and whose name is a string is kept by the callback of the filter. -/
theorem showsOnMap_of_truthy (menv : MapEnv) (plant latitude longitude : JsVal) (name : String)
    (hlat : plant.getProp "latitude" = Except.ok latitude)
    (hlon : plant.getProp "longitude" = Except.ok longitude)
    (hname : plant.getProp "imageName" = Except.ok (JsVal.str name))
    (htl : latitude.truthy = true) (htn : longitude.truthy = true) :
    showsOnMap menv "" plant = Except.ok true := by
  simp [showsOnMap, nameMatches, hlat, hlon, hname, htl, htn, bind, Except.bind, pure,
    Except.pure]

/-- Every record that the filter keeps is a record of the collection that
the callback accepts. -/
theorem filterPlants_mem (menv : MapEnv) (filterText : String) (p : JsVal) :
    ∀ xs ys : List JsVal, filterPlants menv filterText xs = Except.ok ys → p ∈ ys →
      p ∈ xs ∧ showsOnMap menv filterText p = Except.ok true := by
  intro xs
  induction xs with
  | nil =>
    intro ys h hp
    simp only [filterPlants, pure, Except.pure, Except.ok.injEq] at h
    rw [← h] at hp
    simp at hp
  | cons x rest ih =>
    intro ys h hp
    simp only [filterPlants] at h
    cases hx : showsOnMap menv filterText x with
    | error e => simp [hx, bind, Except.bind] at h
    | ok keep =>
      cases hrest : filterPlants menv filterText rest with
      | error e => simp [hx, hrest, bind, Except.bind] at h
      | ok others =>
        simp only [hx, hrest, bind, Except.bind, pure, Except.pure, Except.ok.injEq] at h
        cases keep with
        | true =>
          simp only [if_true] at h
          rw [← h] at hp
          rcases List.mem_cons.mp hp with heq | hin
          · rw [heq]
            exact ⟨List.mem_cons_self _ _, hx⟩
          · exact ⟨List.mem_cons_of_mem _ (ih others hrest hin).1, (ih others hrest hin).2⟩
        | false =>
          simp only [Bool.false_eq_true, if_false] at h
          rw [← h] at hp
          exact ⟨List.mem_cons_of_mem _ (ih others hrest hp).1, (ih others hrest hp).2⟩

/-- The half that holds: a record that lacks a latitude or a longitude is
not in the list rendered on the map. -/
theorem filteredPlants_excludes_lacking (menv : MapEnv) (filterText : String)
    (xs ys : List JsVal) (p : JsVal)
    (h : filteredPlants menv (JsVal.arr xs) filterText = Except.ok ys)
    (hlacks : lacksCoordinate p) : p ∉ ys := by
  intro hp
  simp only [filteredPlants] at h
  cases hkept : filterPlants menv filterText xs with
  | error e => simp [hkept, bind, Except.bind] at h
  | ok kept =>
    simp only [hkept, bind, Except.bind, pure, Except.pure, Except.ok.injEq] at h
    have hmem : p ∈ kept := by
      rw [← h] at hp
      exact (menv.sort_perm kept).mem_iff.mp hp
    have hshow := (filterPlants_mem menv filterText p xs kept hkept hmem).2
    obtain ⟨key, hkey, hval⟩ := hlacks
    unfold showsOnMap at hshow
    rcases hkey with rfl | rfl
    · rcases hval with hv | hv <;>
        simp [hv, JsVal.truthy, bind, Except.bind, pure, Except.pure] at hshow
    · cases hlat : p.getProp "latitude" with
      | error e => simp [hlat, bind, Except.bind] at hshow
      | ok latitude =>
        cases hl : latitude.truthy <;> rcases hval with hv | hv <;>
          simp [hlat, hl, hv, JsVal.truthy, bind, Except.bind, pure, Except.pure] at hshow

/-- C21, at the failing input. The collection holds a record on the equator
(latitude 0, longitude 78, both valid) and the record for `b.jpg`; the filter
text is empty.  The callback of the filter takes `plant.latitude` for its
truthiness, 0 is not truthy, and the record on the equator is left out of the
list rendered on the map, as it is left out of the bounds. -/
theorem filteredPlants_excludes_zero_coordinate :
    hasValidCoordinates equatorPlant ∧
    showsOnMap exampleMapEnv "" equatorPlant = Except.ok false ∧
    filteredPlants exampleMapEnv (JsVal.arr [equatorPlant, plantB]) "" = Except.ok [plantB] ∧
    mapBounds [equatorPlant, plantB] = Except.ok [(JsVal.num 5, JsVal.num 6)] :=
  ⟨⟨0, 78, by rfl, by rfl, by norm_num, by norm_num, by norm_num, by norm_num⟩,
    showsOnMap_of_falsy exampleMapEnv "" equatorPlant (JsVal.num 0) (JsVal.num 78) (by rfl)
      (by rfl) (Or.inl (by simp [JsVal.truthy])),
    by
      have h1 : showsOnMap exampleMapEnv "" equatorPlant = Except.ok false :=
        showsOnMap_of_falsy exampleMapEnv "" equatorPlant (JsVal.num 0) (JsVal.num 78) (by rfl)
          (by rfl) (Or.inl (by simp [JsVal.truthy]))
      have h2 : showsOnMap exampleMapEnv "" plantB = Except.ok true :=
        showsOnMap_of_truthy exampleMapEnv plantB (JsVal.num 5) (JsVal.num 6) "b.jpg" (by rfl)
          (by rfl) (by rfl) (by simp [JsVal.truthy]) (by simp [JsVal.truthy])
      simp only [filteredPlants, filterPlants, h1, h2, bind, Except.bind, pure, Except.pure]
      rfl,
    by
      simp [mapBounds, equatorPlant, plantB, JsVal.getProp, Props.get, JsVal.truthy, bind,
        Except.bind, pure, Except.pure]⟩

/-! ### The theme -/

/-- C22, counterexample. The storage holds the theme `blue`: the initial
state has the theme `blue`, which is neither `light` nor `dark`, and two
toggles lead to `dark`, not back to `blue`. -/
theorem theme_counterexample :
    UiReachable exampleEnv blueStorage (uiInitial blueStorage, blueStorage) ∧
    (uiInitial blueStorage).theme = JsVal.str "blue" ∧
    ¬ isLightOrDark (uiInitial blueStorage).theme ∧
    (toggleTheme (toggleTheme (uiInitial blueStorage, blueStorage))).1.theme = JsVal.str "dark" :=
  ⟨UiReachable.init, by rfl, by
    intro h
    have hb : (uiInitial blueStorage).theme = JsVal.str "blue" := by rfl
    rw [hb] at h
    rcases h with h | h <;>
    · injection h with h
      exact absurd h (by decide), by rfl⟩

/-- What `toggleTheme` does to a state whose theme is `light` or `dark`, and
to every state. -/
theorem toggleTheme_spec (s : UiState × Storage) :
    (s.1.theme = JsVal.str "light" → (toggleTheme s).1.theme = JsVal.str "dark") ∧
    (s.1.theme = JsVal.str "dark" → (toggleTheme s).1.theme = JsVal.str "light") ∧
    (∃ next : String, (toggleTheme s).1.theme = JsVal.str next ∧
      (toggleTheme s).2.theme = some next) ∧
    (toggleTheme s).1.currentView = s.1.currentView ∧
    (toggleTheme s).1.sidebarOpen = s.1.sidebarOpen ∧
    (toggleTheme s).1.notifications = s.1.notifications ∧
    (toggleTheme s).2.farmPlants = s.2.farmPlants := by
  refine ⟨?_, ?_, ⟨_, rfl, rfl⟩, rfl, rfl, rfl, rfl⟩
  · intro h
    simp [toggleTheme, h, JsVal.strictEq]
  · intro h
    simp [toggleTheme, h, JsVal.strictEq]

/-- The theme stays `light` or `dark` along the valid actions. -/
theorem theme_isLightOrDark (env : Env) (store0 : Storage) (s : UiState × Storage)
    (hreach : UiReachableValid env store0 s) : isLightOrDark s.1.theme := by
  induction hreach with
  | init hvalid =>
    rcases hvalid with h | h | h | h
    · left
      simp [uiInitial, h]
    · left
      simp [uiInitial, h]
    · left
      simp [uiInitial, h]
    · right
      simp [uiInitial, h]
  | step s op _ hop ih =>
    cases op with
    | setTheme payload => exact hop
    | toggleTheme =>
      rcases ih with h | h
      · right
        exact (toggleTheme_spec s).1 h
      · left
        exact (toggleTheme_spec s).2.1 h
    | setCurrentView payload => exact ih
    | toggleSidebar => exact ih
    | addNotification now payload => exact ih
    | removeNotification payload => exact ih
    | clearNotifications => exact ih

/-- C22, amended. Theme toggle: in every UI state reachable from an initial
state whose stored theme is absent, empty, `light` or `dark`, by actions of
which every `setTheme` sets `light` or `dark`, the theme flag is `light` or
`dark`; `toggleTheme` switches it to the other value and writes the new value
under the theme key, so that the stored theme is the theme of the state; two
toggles in a row restore the theme; and no other field of the UI state, nor
the other key of the storage, changes. -/
theorem theme_toggle (env : Env) (store0 : Storage) (s : UiState × Storage)
    (hreach : UiReachableValid env store0 s) :
    isLightOrDark s.1.theme ∧
    isLightOrDark (toggleTheme s).1.theme ∧
    (toggleTheme s).1.theme ≠ s.1.theme ∧
    (∃ next : String, (toggleTheme s).1.theme = JsVal.str next ∧
      (toggleTheme s).2.theme = some next) ∧
    (toggleTheme (toggleTheme s)).1.theme = s.1.theme ∧
    (toggleTheme s).1.currentView = s.1.currentView ∧
    (toggleTheme s).1.sidebarOpen = s.1.sidebarOpen ∧
    (toggleTheme s).1.notifications = s.1.notifications ∧
    (toggleTheme s).2.farmPlants = s.2.farmPlants := by
  have hspec := toggleTheme_spec s
  have hspec2 := toggleTheme_spec (toggleTheme s)
  have htheme := theme_isLightOrDark env store0 s hreach
  refine ⟨htheme, ?_, ?_, hspec.2.2.1, ?_, hspec.2.2.2.1, hspec.2.2.2.2.1, hspec.2.2.2.2.2.1,
    hspec.2.2.2.2.2.2⟩
  · rcases htheme with h | h
    · exact Or.inr (hspec.1 h)
    · exact Or.inl (hspec.2.1 h)
  · rcases htheme with h | h
    · rw [hspec.1 h, h]
      intro hc
      injection hc with hc
      exact absurd hc (by decide)
    · rw [hspec.2.1 h, h]
      intro hc
      injection hc with hc
      exact absurd hc (by decide)
  · rcases htheme with h | h
    · rw [hspec2.2.1 (hspec.1 h), h]
    · rw [hspec2.1 (hspec.2.1 h), h]

/-- C22, witness. A first session, with nothing stored: after one toggle the
theme is `dark`, and the state is reachable. -/
theorem theme_toggle_witness :
    UiReachableValid exampleEnv emptyStorage (toggleTheme (uiInitial emptyStorage, emptyStorage)) ∧
    (toggleTheme (uiInitial emptyStorage, emptyStorage)).1.theme = JsVal.str "dark" ∧
    (toggleTheme (toggleTheme (uiInitial emptyStorage, emptyStorage))).1.theme =
      JsVal.str "light" ∧
    (toggleTheme (toggleTheme (toggleTheme (uiInitial emptyStorage, emptyStorage)))).1.theme =
      JsVal.str "dark" :=
  have hreach : UiReachableValid exampleEnv emptyStorage
      (toggleTheme (uiInitial emptyStorage, emptyStorage)) :=
    UiReachableValid.step _ UiOp.toggleTheme (UiReachableValid.init (Or.inl rfl)) trivial
  have h := theme_toggle exampleEnv emptyStorage _ hreach
  ⟨hreach, by rfl, by rfl, by
    rw [h.2.2.2.2.1]
    rfl⟩

end MyCropMap
